import Mathlib

/-!
Shallow embedding of `packages/download-framework/lib/DownloadFramework.js`.

The JS module exports a class `DownloadFramework` whose method `getFramework`
downloads a versioned AMP framework bundle: it validates the destination
directory, resolves the runtime version (rtv) and origin base URL, fetches and
parses the `files.txt` manifest, optionally clears the destination directory,
pre-creates subdirectories, and fetches every manifest entry to disk, applying
one content transform to `amp-geo` files.

Platform and I/O primitives (`fs`, `fetch`, `new URL`, the version and cache
collaborators) are modelled by an oracle environment `Env`; side effects are
recorded in an event trace.  Fallible code returns `Except String _`: at the
top level, `Except.error` means the returned promise REJECTED (an exception
escaped `getFramework`), while `Except.ok ret` means the promise resolved with
the result object `ret`.
-/

set_option maxRecDepth 4000

/-- Name of the AMP framework manifest file (`FRAMEWORK_FILES_TXT` constant). -/
def FRAMEWORK_FILES_TXT : String := "files.txt"

/-- The hotpatch placeholder written into `amp-geo` files
(the string literal in `fetchAndSaveAsync_`). -/
def AMP_HOTPATCH_TOKEN : String := "\x7b\x7bAMP_ISO_COUNTRY_HOTPATCH\x7d\x7d"

/-- An HTTP response as seen by the code: the `ok` flag and the body text
(`res.text()` / `res.body` carry the same bytes in this model). -/
structure Response where
  ok : Bool
  text : String
deriving DecidableEq, Repr

/-- A directory entry returned by `fs.readdir(withFileTypes)`. -/
structure DirEnt where
  name : String
  isDir : Bool
deriving DecidableEq, Repr

/-- Observable side effects of one `getFramework` run, in order. -/
inductive Event where
  | queryVersion (ampUrlPrefix : Option String)
  | fetch (url : String)
  | clearDir (dirpath : String)
  | unlink (p : String)
  | rmdirRec (p : String)
  | mkdir (p : String)
  | write (p : String) (content : String)
deriving DecidableEq, Repr

/-- Oracle environment: the platform and I/O primitives the code calls.
Each `... → Option String` field yields `some msg` when the corresponding
primitive throws/rejects with message `msg`, and `none` on success. -/
structure Env where
  windows : Bool
  homedir : String
  assertDirErr : String → Option String
  currentVersion : Option String → Option String
  googleCache : Option String
  urlParses : String → Bool
  fetch : String → Except String Response
  readdir : String → Except String (List DirEnt)
  rmdirErr : String → Option String
  unlinkErr : String → Option String
  dirExists : String → Bool
  mkdirErr : String → Option String
  writeErr : String → String → Option String

/-- The `options` argument of `getFramework`; `none` models an absent
(`undefined`) property. -/
structure Options where
  dest : Option String
  clear : Option Bool
  rtv : Option String
  ampUrlPrefix : Option String
deriving DecidableEq, Repr

/-- The result object (`ret`) built by `getFramework`. -/
structure Ret where
  status : Bool
  error : String
  count : Nat
  url : String
  dest : Option String
  rtv : String
deriving DecidableEq, Repr

/-- One parsed manifest entry (`{filepath, url}`). -/
structure FileEntry where
  filepath : String
  url : String
deriving DecidableEq, Repr

/-- `path.sep` for the modelled platform. -/
def pathSep (env : Env) : String := if env.windows then "\\" else "/"

/-- `path.sep` as a character (it is a single character on both platforms). -/
def pathSepChar (env : Env) : Char := if env.windows then '\\' else '/'

/-- The first piece of `s.split(sep)` for a one-character separator. -/
def firstSegment (sep : Char) : List Char → List Char
  | [] => []
  | c :: rest => if c = sep then [] else c :: firstSegment sep rest

/-- JS `s.endsWith(suffix)` (list-level, so that it computes in the kernel). -/
def jsEndsWith (s suffix : String) : Bool := List.isSuffixOf suffix.toList s.toList

/-- `path.join(a, b)` (shallow model: insert one separator when needed). -/
def joinPath (env : Env) (a b : String) : String :=
  if jsEndsWith a (pathSep env) then a ++ b else a ++ pathSep env ++ b

/-- First-occurrence string replacement, as in JS `String.prototype.replace`
with a string pattern. -/
def replaceFirstAux (pat rep : List Char) : List Char → List Char
  | [] => []
  | c :: rest =>
    if List.isPrefixOf pat (c :: rest) then rep ++ (c :: rest).drop pat.length
    else c :: replaceFirstAux pat rep rest

/-- JS `s.replace(pat, rep)` for a plain-string `pat` (first occurrence only). -/
def jsReplaceFirst (s pat rep : String) : String :=
  ⟨replaceFirstAux pat.toList rep.toList s.toList⟩

/-- Characters `encodeURIComponent` leaves unescaped. -/
def isURIUnreserved (c : Char) : Bool :=
  c.isAlpha || c.isDigit || c = '-' || c = '_' || c = '.' || c = '!' ||
    c = '~' || c = '*' || c = '\'' || c = '(' || c = ')'

/-- UTF-8 bytes of one code point. -/
def utf8Bytes (c : Char) : List Nat :=
  let n := c.toNat
  if n < 0x80 then [n]
  else if n < 0x800 then [0xC0 + n / 0x40, 0x80 + n % 0x40]
  else if n < 0x10000 then
    [0xE0 + n / 0x1000, 0x80 + (n / 0x40) % 0x40, 0x80 + n % 0x40]
  else
    [0xF0 + n / 0x40000, 0x80 + (n / 0x1000) % 0x40,
      0x80 + (n / 0x40) % 0x40, 0x80 + n % 0x40]

/-- Uppercase hex digit for a nibble. -/
def hexDigit (n : Nat) : Char :=
  if n < 10 then Char.ofNat ('0'.toNat + n) else Char.ofNat ('A'.toNat + n - 10)

/-- `%XX` escape of one byte. -/
def percentByte (b : Nat) : List Char := ['%', hexDigit (b / 16), hexDigit (b % 16)]

/-- JS `encodeURIComponent`. -/
def encodeURIComponent (s : String) : String :=
  ⟨(s.toList.map (fun c =>
      if isURIUnreserved c then [c] else ((utf8Bytes c).map percentByte).flatten)).flatten⟩

/-- Prepend a character to the first piece of a split. -/
def consHead (c : Char) : List (List Char) → List (List Char)
  | [] => [[c]]
  | h :: t => (c :: h) :: t

/-- Splitting on the regex `/\r?\n/`, as used for the manifest body. -/
def splitNL : List Char → List (List Char)
  | [] => [[]]
  | '\n' :: rest => [] :: splitNL rest
  | '\r' :: '\n' :: rest => [] :: splitNL rest
  | c :: rest => consHead c (splitNL rest)

/-- `text.split(/\r?\n/)` at the string level. -/
def splitNewlines (s : String) : List String := (splitNL s.toList).map (fun l => ⟨l⟩)

/-- JS `s.split(sep)` for a one-character separator, at the char-list level. -/
def splitOnChar (sep : Char) : List Char → List (List Char)
  | [] => [[]]
  | c :: rest => if c = sep then [] :: splitOnChar sep rest else consHead c (splitOnChar sep rest)

/-- Join char-list pieces with a fixed separator (JS `Array.prototype.join`). -/
def joinWithSep (sep : List Char) : List (List Char) → List Char
  | [] => []
  | [l] => l
  | l :: rest => l ++ sep ++ joinWithSep sep rest

/-- Manifest parsing: split on line breaks, drop empty lines, build entries
(the body of the `files = text.split(...)...` pipeline in `getFramework`). -/
def parseFilesTxt (frameworkBaseUrl text : String) : List FileEntry :=
  ((splitNewlines text).filter (fun fp => fp ≠ "")).map
    (fun fp => { filepath := fp, url := frameworkBaseUrl ++ fp })

/-- ASCII letter of either case, as matched by `[a-z]` under the `i` flag. -/
def isAsciiLetter (c : Char) : Bool :=
  ('a' ≤ c && c ≤ 'z') || ('A' ≤ c && c ≤ 'Z')

/-- Does the regex `/[a-z]{2} {26}/i` match at the head of this char list? -/
def geoRunAt : List Char → Bool
  | a :: b :: rest =>
    isAsciiLetter a && isAsciiLetter b &&
      decide (rest.take 26 = List.replicate 26 ' ')
  | _ => false

/-- JS `body.replace(/[a-z]{2} {26}/i, AMP_HOTPATCH_TOKEN)`: replace the
leftmost match (2 letters + 26 spaces = 28 chars) and keep the rest. -/
def hotpatchChars : List Char → List Char
  | [] => []
  | c :: rest =>
    if geoRunAt (c :: rest) then AMP_HOTPATCH_TOKEN.toList ++ rest.drop 27
    else c :: hotpatchChars rest

/-- The amp-geo hotpatch transform at the string level. -/
def hotpatch (s : String) : String := ⟨hotpatchChars s.toList⟩

/-- `[\d.]` character class. -/
def isDigitDot (c : Char) : Bool := c.isDigit || c = '.'

/-- `\.m?js` at the head of the list. -/
def dotMjs (l : List Char) : Bool :=
  List.isPrefixOf ['.', 'j', 's'] l || List.isPrefixOf ['.', 'm', 'j', 's'] l

/-- `[\d.]+\.m?js` at the head of the list (with regex backtracking folded
into an existential over the length of the `[\d.]+` run). -/
def geoDigitsTail : List Char → Bool
  | [] => false
  | c :: rest => isDigitDot c && (dotMjs rest || geoDigitsTail rest)

/-- Does `/amp-geo-([\d.]+|latest)\.m?js/` match starting at this position? -/
def geoMatchAt (l : List Char) : Bool :=
  List.isPrefixOf "amp-geo-".toList l &&
    (geoDigitsTail (l.drop 8) ||
      (List.isPrefixOf "latest".toList (l.drop 8) && dotMjs (l.drop 14)))

/-- Does `/amp-geo-([\d.]+|latest)\.m?js/` match anywhere in the list? -/
def geoAnywhere : List Char → Bool
  | [] => false
  | c :: rest => geoMatchAt (c :: rest) || geoAnywhere rest

/-- The filename test `/amp-geo-([\d.]+|latest)\.m?js/.test(filepath)`. -/
def geoFileTest (s : String) : Bool := geoAnywhere s.toList

/-- The bytes `fetchAndSaveAsync_` writes to disk for a fetched body:
the amp-geo hotpatch for matching filenames, the body unchanged otherwise. -/
def savedContent (filepath body : String) : String :=
  if geoFileTest filepath then hotpatch body else body

/-- The tilde-expansion step at the top of `getFramework`
(`dest.split(path.sep)[0] === '~'` guard then `dest.replace('~', homedir)`).
On non-Windows with `dest` undefined, `dest.split` throws a TypeError. -/
def expandTildeStep (env : Env) (dest : Option String) : Except String (Option String) :=
  if env.windows then .ok dest
  else
    match dest with
    | none => .error "TypeError: Cannot read properties of undefined (reading split)"
    | some d =>
      if firstSegment (pathSepChar env) d.toList = ['~'] then
        .ok (some (jsReplaceFirst d "~" env.homedir))
      else .ok (some d)

/-- The `!rtv` branch of version resolution: consult
`runtimeVersionProvider.currentVersion({ampUrlPrefix})`. -/
def rtvQuery (env : Env) (ampUrlPrefix : Option String) : Except String String × List Event :=
  match env.currentVersion ampUrlPrefix with
  | none => (.error "Could not determine runtime version to download", [.queryVersion ampUrlPrefix])
  | some v =>
    if v = "" then (.error "Could not determine runtime version to download", [.queryVersion ampUrlPrefix])
    else (.ok v, [.queryVersion ampUrlPrefix])

/-- Version resolution (`if (!rtv) ... else if (rtv !== encodeURIComponent(rtv)) ...`).
`Except.error` is a returned-result error, never a rejection. -/
def resolveRtv (env : Env) (rtv ampUrlPrefix : Option String) : Except String String × List Event :=
  match rtv with
  | none => rtvQuery env ampUrlPrefix
  | some s =>
    if s = "" then rtvQuery env ampUrlPrefix
    else if s ≠ encodeURIComponent s then
      (.error ("Invalid runtime version specified: " ++ s), [])
    else (.ok s, [])

/-- The `!ampUrlPrefix` branch of origin resolution: consult `Caches.get('google')`. -/
def originQuery (env : Env) : Except String String :=
  match env.googleCache with
  | none => .error "Could not determine AMP cache domain"
  | some domain => .ok ("https://" ++ domain)

/-- Origin resolution (`if (!ampUrlPrefix) ... else if (!this.isAbsoluteUrl_(...)) ...`). -/
def resolveOrigin (env : Env) (ampUrlPrefix : Option String) : Except String String :=
  match ampUrlPrefix with
  | none => originQuery env
  | some p =>
    if p = "" then originQuery env
    else if env.urlParses p then .ok p
    else .error "ampUrlPrefix must be an absolute URL"

/-- `ampUrlPrefix + (ampUrlPrefix.endsWith('/') ? '' : '/') + 'rtv/' + rtv + '/'`. -/
def frameworkBaseUrlOf (ampUrlPrefix rtv : String) : String :=
  ampUrlPrefix ++ (if jsEndsWith ampUrlPrefix "/" then "" else "/") ++ "rtv/" ++ rtv ++ "/"

/-- Manifest fetch, parse and self-reference validation (the `try` block of
`getFramework`).  `Except.error` carries the message stored on the result. -/
def fetchManifest (env : Env) (filesTxtUrl frameworkBaseUrl : String) :
    Except String (List FileEntry) :=
  match env.fetch filesTxtUrl with
  | .error m => .error ("Unable to read AMP framework files listing\n" ++ m)
  | .ok res =>
    if res.ok = false then
      .error ("Unable to fetch AMP framework files listing: " ++ filesTxtUrl)
    else
      let files := parseFilesTxt frameworkBaseUrl res.text
      if files.any (fun f => f.filepath = FRAMEWORK_FILES_TXT) then .ok files
      else
        .error ("Unable to read AMP framework files listing\nExpected " ++
          FRAMEWORK_FILES_TXT ++ " in file listing, but it was not found.")

/-- The removal events of `clearDirectory_`, one per direct child. -/
def clearEvents (env : Env) (dirpath : String) (contents : List DirEnt) : List Event :=
  contents.map (fun item =>
    if item.isDir then Event.rmdirRec (joinPath env dirpath item.name)
    else Event.unlink (joinPath env dirpath item.name))

/-- The rejection reasons of the per-item removal promises, in order. -/
def clearErrs (env : Env) (dirpath : String) (contents : List DirEnt) : List String :=
  contents.filterMap (fun item =>
    if item.isDir then env.rmdirErr (joinPath env dirpath item.name)
    else env.unlinkErr (joinPath env dirpath item.name))

/-- `clearDirectory_`: readdir the destination, then remove every direct child
(directories recursively, files by unlink).  A failure rejects. -/
def clearDirectory_ (env : Env) (dirpath : String) : Except String Unit × List Event :=
  match env.readdir dirpath with
  | .error m => (.error m, [.clearDir dirpath])
  | .ok contents =>
    match (clearErrs env dirpath contents).head? with
    | some m => (.error m, Event.clearDir dirpath :: clearEvents env dirpath contents)
    | none => (.ok (), Event.clearDir dirpath :: clearEvents env dirpath contents)

/-- `path.dirname` (posix rules; bundle paths use `/`). -/
def dirnameEnd (chars : List Char) : Option Nat :=
  ((List.range chars.length).filter (fun i =>
    decide (1 ≤ i) && decide (chars.getD i ' ' = '/') &&
      (chars.drop (i + 1)).any (fun c => c ≠ '/'))).getLast?

/-- `path.dirname(p)`. -/
def dirname (s : String) : String :=
  let chars := s.toList
  if chars.length = 0 then "."
  else
    let hasRoot := chars.getD 0 ' ' = '/'
    match dirnameEnd chars with
    | none => if hasRoot then "/" else "."
    | some e => if hasRoot && e = 1 then "//" else ⟨chars.take e⟩

/-- The per-directory loop body of `createSubdirectories_`. -/
def mkdirsGo (env : Env) (dest : String) : List String → Except String Unit × List Event
  | [] => (.ok (), [])
  | dir :: rest =>
    if env.dirExists (joinPath env dest
        ⟨joinWithSep (pathSep env).toList (splitOnChar '/' dir.toList)⟩) then
      mkdirsGo env dest rest
    else
      match env.mkdirErr (joinPath env dest
          ⟨joinWithSep (pathSep env).toList (splitOnChar '/' dir.toList)⟩) with
      | some m => (.error m, [.mkdir (joinPath env dest
          ⟨joinWithSep (pathSep env).toList (splitOnChar '/' dir.toList)⟩)])
      | none =>
        (( mkdirsGo env dest rest).1, Event.mkdir (joinPath env dest
          ⟨joinWithSep (pathSep env).toList (splitOnChar '/' dir.toList)⟩) ::
          (mkdirsGo env dest rest).2)

/-- `createSubdirectories_`: the unique non-root parent directories of all
manifest entries (first occurrence kept), each created if absent. -/
def createSubdirectories_ (env : Env) (files : List FileEntry) (dest : String) :
    Except String Unit × List Event :=
  let dirs := files.map (fun f => dirname f.filepath)
  let uniqueDirs := (dirs.enum.filter (fun p =>
    decide (p.2 ≠ ".") && decide (dirs.findIdx (fun x => x == p.2) = p.1))).map Prod.snd
  mkdirsGo env dest uniqueDirs

/-- `fetchAndSaveAsync_`: fetch one manifest entry and write it to disk,
hotpatching amp-geo files.  `Except.error` is this file's rejection reason. -/
def fetchAndSaveAsync_ (env : Env) (dest : String) (f : FileEntry) :
    Except String Unit × List Event :=
  match env.fetch f.url with
  | .error m => (.error m, [.fetch f.url])
  | .ok res =>
    if res.ok = false then (.error ("Failed to fetch " ++ f.url), [.fetch f.url])
    else
      match env.writeErr (joinPath env dest f.filepath) (savedContent f.filepath res.text) with
      | some m => (.error m, [.fetch f.url,
          .write (joinPath env dest f.filepath) (savedContent f.filepath res.text)])
      | none => (.ok (), [.fetch f.url,
          .write (joinPath env dest f.filepath) (savedContent f.filepath res.text)])

/-- The first per-file rejection reason among the stage-5 operations, in
manifest order (the reason `Promise.all` settles with). -/
def firstFileError (env : Env) (dest : String) (files : List FileEntry) : Option String :=
  (files.filterMap (fun f =>
    match (fetchAndSaveAsync_ env dest f).1 with
    | .error m => some m
    | .ok _ => none)).head?

/-- Stage 5: dispatch `fetchAndSaveAsync_` for every manifest entry and wait
for all of them (`Promise.all`); all entries run, failures are aggregated. -/
def materializeFiles (env : Env) (dest : String) (files : List FileEntry) :
    Except String Unit × List Event :=
  match firstFileError env dest files with
  | some m => (.error m, (files.map (fun f => (fetchAndSaveAsync_ env dest f).2)).flatten)
  | none => (.ok (), (files.map (fun f => (fetchAndSaveAsync_ env dest f).2)).flatten)

/-- Is this event a removal of a filesystem entry (directory clearing work)? -/
def Event.isRemoval : Event → Bool
  | .clearDir _ => true
  | .unlink _ => true
  | .rmdirRec _ => true
  | _ => false

/-- Is this event a directory creation or a file write? -/
def Event.isDirOrWrite : Event → Bool
  | .mkdir _ => true
  | .write _ _ => true
  | _ => false

/-- Does this event mutate the filesystem? -/
def Event.isMutation (e : Event) : Bool := e.isRemoval || e.isDirOrWrite

/-- Interpretation of one event on a file-content map (path ↦ contents). -/
def applyEvent (env : Env) (fs : String → Option String) : Event → String → Option String
  | .write p c => fun q => if q = p then some c else fs q
  | .unlink p => fun q => if q = p then none else fs q
  | .rmdirRec p => fun q =>
      if q = p || String.isPrefixOf (p ++ pathSep env) q then none else fs q
  | _ => fs

/-- Interpretation of a trace on a file-content map, first event first. -/
def applyEvents (env : Env) : List Event → (String → Option String) → String → Option String
  | [], fs => fs
  | e :: rest, fs => applyEvents env rest (applyEvent env fs e)

/-- Modelled from the spec words of C2: a run of exactly two LOWERCASE ASCII
letters followed by 26 spaces, matching at the head of the list. -/
def specLowerRunAt : List Char → Bool
  | a :: b :: rest =>
    ('a' ≤ a && a ≤ 'z') && ('a' ≤ b && b ≤ 'z') &&
      decide (rest.take 26 = List.replicate 26 ' ')
  | _ => false

/-- Modelled from the spec words of C3: the origin prefix "normalized to
exactly one trailing slash". -/
def specNormalizeTrailingSlash (p : String) : String :=
  ⟨((p.toList.reverse.dropWhile (fun c => c = '/')).reverse)⟩ ++ "/"

/-- Modelled from the spec words of C3: the bundle base URL built from the
normalized prefix. -/
def specBaseUrl (p v : String) : String :=
  specNormalizeTrailingSlash p ++ "rtv/" ++ v ++ "/"

/-- `getFramework(options)`: the whole pipeline.  The first component is
`.ok ret` when the returned promise resolves with result `ret`, and
`.error msg` when an exception escapes (the promise rejects); the second
component is the trace of observable side effects. -/
def getFramework (o : Options) (env : Env) : Except String Ret × List Event :=
  match expandTildeStep env o.dest with
  | .error e => (.error e, [])
  | .ok dest =>
    let ret0 : Ret := { status := false, error := "", count := 0, url := "", dest := dest, rtv := "" }
    match dest with
    | none => (.ok { ret0 with error := "Directory not specified" }, [])
    | some d =>
      if d = "" then (.ok { ret0 with error := "Directory not specified" }, [])
      else
        match env.assertDirErr d with
        | some e => (.ok { ret0 with error := e }, [])
        | none =>
          match resolveRtv env o.rtv o.ampUrlPrefix with
          | (.error e, evs1) => (.ok { ret0 with error := e }, evs1)
          | (.ok rtv, evs1) =>
            let ret1 := { ret0 with rtv := rtv }
            match resolveOrigin env o.ampUrlPrefix with
            | .error e => (.ok { ret1 with error := e }, evs1)
            | .ok ampUrlPrefix =>
              let frameworkBaseUrl := frameworkBaseUrlOf ampUrlPrefix rtv
              let filesTxtUrl := frameworkBaseUrl ++ FRAMEWORK_FILES_TXT
              let ret2 := { ret1 with url := frameworkBaseUrl }
              match fetchManifest env filesTxtUrl frameworkBaseUrl with
              | .error e => (.ok { ret2 with error := e }, evs1 ++ [.fetch filesTxtUrl])
              | .ok files =>
                let ret3 := { ret2 with count := files.length }
                let evs2 := evs1 ++ [Event.fetch filesTxtUrl]
                match (if o.clear ≠ some false then clearDirectory_ env d else (.ok (), [])) with
                | (.error m, evsC) => (.error m, evs2 ++ evsC)
                | (.ok _, evsC) =>
                  match createSubdirectories_ env files d with
                  | (.error m, evsD) => (.error m, evs2 ++ evsC ++ evsD)
                  | (.ok _, evsD) =>
                    match materializeFiles env d files with
                    | (.error m, evsM) =>
                      (.ok { ret3 with error := "Failed to download AMP framework\n" ++ m },
                        evs2 ++ evsC ++ evsD ++ evsM)
                    | (.ok _, evsM) =>
                      (.ok { ret3 with status := true }, evs2 ++ evsC ++ evsD ++ evsM)

/-- A 26-space string (the run length the hotpatch regex requires). -/
def sp26 : String := "                          "

/-- An all-succeeding oracle environment used to instantiate theorems. -/
def testEnv : Env where
  windows := true
  homedir := ""
  assertDirErr := fun _ => none
  currentVersion := fun _ => some "99"
  googleCache := some "cdn.ampproject.org"
  urlParses := fun _ => true
  fetch := fun _ => .ok { ok := true, text := "files.txt\nv0/a.js\n" }
  readdir := fun _ => .ok []
  rmdirErr := fun _ => none
  unlinkErr := fun _ => none
  dirExists := fun _ => false
  mkdirErr := fun _ => none
  writeErr := fun _ _ => none

/-- Environment whose version-discovery collaborator finds nothing. -/
def testEnvNoVersion : Env := { testEnv with currentVersion := fun _ => none }

/-- A geo-body containing an UPPERCASE two-letter country run. -/
def c2Body : String := "US" ++ sp26 ++ ";rest"

/-- A geo-body containing a lowercase two-letter country run. -/
def c2BodyLower : String := "us" ++ sp26 ++ ";rest"

/-- Baseline options used to instantiate theorems: explicit version and origin. -/
def oT : Options :=
  { dest := some "dest", clear := none, rtv := some "15",
    ampUrlPrefix := some "https://example.com" }

/-- The base URL those options resolve to. -/
def baseT : String := "https://example.com/rtv/15/"

/-- Environment whose manifest body omits `files.txt`. -/
def testEnvNoSelf : Env :=
  { testEnv with fetch := fun _ => .ok { ok := true, text := "a.js\nb.css\n" } }

/-- Environment where fetching the file `a.js` yields an HTTP failure while
the manifest (listing `files.txt` and `a.js`) fetches fine. -/
def testEnvOneFail : Env :=
  { testEnv with fetch := (fun u =>
      if u = baseT ++ "a.js" then .ok ({ ok := false, text := "" } : Response)
      else .ok ({ ok := true, text := "files.txt\na.js\n" } : Response)) }

/-- Environment whose destination directory has one pre-existing child. -/
def testEnvWithChild : Env :=
  { testEnv with readdir := fun _ => .ok [{ name := "old.txt", isDir := false }] }

theorem stringMk_toList (s : String) : (⟨s.toList⟩ : String) = s := rfl

theorem hotpatchChars_of_no_match : ∀ (l : List Char),
    (∀ i, geoRunAt (l.drop i) = false) → hotpatchChars l = l
  | [], _ => rfl
  | c :: rest, h => by
    have h0 : geoRunAt (c :: rest) = false := by simpa using h 0
    rw [hotpatchChars, if_neg (by simp [h0])]
    exact congrArg (c :: ·) (hotpatchChars_of_no_match rest (fun i => by
      simpa [List.drop_succ_cons] using h (i + 1)))

theorem hotpatchChars_of_first_match : ∀ (l : List Char) (i : Nat),
    geoRunAt (l.drop i) = true → (∀ j, j < i → geoRunAt (l.drop j) = false) →
    hotpatchChars l = l.take i ++ AMP_HOTPATCH_TOKEN.toList ++ l.drop (i + 28)
  | [], i, hm, _ => by simp [List.drop_nil, geoRunAt] at hm
  | c :: rest, 0, hm, _ => by
    rw [List.drop_zero] at hm
    rw [hotpatchChars, if_pos (by simp [hm])]
    have h28 : (28 : Nat) = 27 + 1 := rfl
    simp [List.take_zero, h28, List.drop_succ_cons]
  | c :: rest, i + 1, hm, hmin => by
    have h0 : geoRunAt (c :: rest) = false := by simpa using hmin 0 (Nat.succ_pos i)
    rw [hotpatchChars, if_neg (by simp [h0])]
    have hm' : geoRunAt (rest.drop i) = true := by
      simpa [List.drop_succ_cons] using hm
    have hmin' : ∀ j, j < i → geoRunAt (rest.drop j) = false := fun j hj => by
      simpa [List.drop_succ_cons] using hmin (j + 1) (Nat.succ_lt_succ hj)
    rw [hotpatchChars_of_first_match rest i hm' hmin']
    have harith : i + 1 + 28 = (i + 28) + 1 := by omega
    rw [harith, List.take_succ_cons, List.drop_succ_cons]
    simp

/-- C2 (amended): for every manifest entry whose relative path matches the
geolocation-helper filename pattern, the bytes written to disk equal the
fetched body with the LEFTMOST substring consisting of two ASCII letters of
EITHER case followed by 26 spaces replaced by the fixed placeholder token,
all other bytes unchanged; a body containing no such substring is written
unmodified. -/
theorem claim2_theorem (fp : String) (hfp : geoFileTest fp = true) (body : String) :
    savedContent fp body = hotpatch body ∧
    (∀ (env : Env) (dest u : String) (res : Response),
      env.fetch u = .ok res → res.ok = true →
      (fetchAndSaveAsync_ env dest { filepath := fp, url := u }).2 =
        [Event.fetch u, Event.write (joinPath env dest fp) (savedContent fp res.text)]) ∧
    ((∀ i, geoRunAt (body.toList.drop i) = false) → savedContent fp body = body) ∧
    (∀ i, geoRunAt (body.toList.drop i) = true →
      (∀ j, j < i → geoRunAt (body.toList.drop j) = false) →
      (savedContent fp body).toList =
        body.toList.take i ++ AMP_HOTPATCH_TOKEN.toList ++ body.toList.drop (i + 28)) := by
  refine ⟨by simp [savedContent, hfp], ?_, ?_, ?_⟩
  · intro env dest u res hfetch hok
    unfold fetchAndSaveAsync_
    rw [hfetch]
    simp only [hok]
    cases h : env.writeErr (joinPath env dest fp) (savedContent fp res.text) <;> simp
  · intro h
    have : hotpatch body = body := by
      unfold hotpatch
      rw [hotpatchChars_of_no_match body.toList h, stringMk_toList]
    simp [savedContent, hfp, this]
  · intro i hm hmin
    have : savedContent fp body = hotpatch body := by simp [savedContent, hfp]
    rw [this]
    unfold hotpatch
    exact hotpatchChars_of_first_match body.toList i hm hmin

theorem claim2_witness :
    (savedContent "amp-geo-0.1.js" c2BodyLower).toList =
      c2BodyLower.toList.take 0 ++ AMP_HOTPATCH_TOKEN.toList ++ c2BodyLower.toList.drop 28 :=
  ( claim2_theorem "amp-geo-0.1.js" (by decide) c2BodyLower).2.2.2 0 (by decide)
    (fun j hj => absurd hj (Nat.not_lt_zero j))

/-- C2 (counterexample): `amp-geo-0.1.js` matches the filename pattern and the
body `"US" ++ 26 spaces ++ ";rest"` contains NO run of two LOWERCASE letters
followed by 26 spaces, yet the code does not write it unmodified (the regex
carries the `i` flag, so the uppercase run is replaced). -/
theorem claim2_counterexample :
    geoFileTest "amp-geo-0.1.js" = true ∧
    ((List.range c2Body.toList.length).all
      (fun i => !(specLowerRunAt (c2Body.toList.drop i)))) = true ∧
    savedContent "amp-geo-0.1.js" c2Body ≠ c2Body :=
  ⟨by decide, by decide, by decide⟩

/-- C3 (amended): the resolved bundle base URL is the supplied prefix with one
slash appended when it lacks a trailing slash (the code does not normalize an
existing run of trailing slashes down to one), followed by `rtv/<version>/`;
with version "15" and prefix "https://example.com" the base URL is exactly
"https://example.com/rtv/15/". -/
theorem claim3_theorem :
    (∀ p v, jsEndsWith p "/" = true → frameworkBaseUrlOf p v = p ++ "rtv/" ++ v ++ "/") ∧
    (∀ p v, jsEndsWith p "/" = false → frameworkBaseUrlOf p v = p ++ "/" ++ "rtv/" ++ v ++ "/") ∧
    frameworkBaseUrlOf "https://example.com" "15" = "https://example.com/rtv/15/" := by
  refine ⟨?_, ?_, by decide⟩
  · intro p v h
    simp [frameworkBaseUrlOf, h]
  · intro p v h
    simp [frameworkBaseUrlOf, h]

theorem claim3_witness :
    frameworkBaseUrlOf "https://example.com" "15" = "https://example.com/rtv/15/" ∧
    frameworkBaseUrlOf "https://example.com/" "15" =
      "https://example.com/" ++ "rtv/" ++ "15" ++ "/" :=
  ⟨claim3_theorem.2.2, claim3_theorem.1 "https://example.com/" "15" (by decide)⟩

/-- C3 (counterexample): the prefix "https://example.com//" is accepted as an
absolute URL, but the code appends nothing (it already ends with a slash), so
the base URL keeps BOTH trailing slashes instead of being normalized to
exactly one as the claim states. -/
theorem claim3_counterexample :
    resolveOrigin testEnv (some "https://example.com//") = .ok "https://example.com//" ∧
    frameworkBaseUrlOf "https://example.com//" "15" = "https://example.com//rtv/15/" ∧
    frameworkBaseUrlOf "https://example.com//" "15" ≠
      specBaseUrl "https://example.com//" "15" ∧
    specBaseUrl "https://example.com//" "15" = "https://example.com/rtv/15/" :=
  ⟨rfl, by decide, by decide, by decide⟩

/-- C6 (amended): for every NONEMPTY caller-supplied version string, version
resolution succeeds iff the string equals its own percent-encoded form;
otherwise it fails with the "Invalid runtime version" configuration error and
the version-discovery collaborator is not consulted.  (An EMPTY supplied
string is falsy in JS and is instead delegated to the collaborator.) -/
theorem claim6_theorem (env : Env) (p : Option String) (s : String) (hs : s ≠ "") :
    ((resolveRtv env (some s) p).1 = .ok s ↔ s = encodeURIComponent s) ∧
    (resolveRtv env (some s) p).2 = [] ∧
    (s ≠ encodeURIComponent s →
      (resolveRtv env (some s) p).1 = .error ("Invalid runtime version specified: " ++ s)) := by
  simp only [resolveRtv]
  rw [if_neg hs]
  by_cases h : s = encodeURIComponent s
  · rw [if_neg (not_not_intro h)]
    exact ⟨iff_of_true rfl h, rfl, fun hc => absurd h hc⟩
  · rw [if_pos h]
    exact ⟨iff_of_false (by simp) h, rfl, fun _ => rfl⟩

theorem claim6_witness :
    ((resolveRtv testEnv (some "15") none).1 = .ok "15" ↔ "15" = encodeURIComponent "15") ∧
    (resolveRtv testEnv (some "15") none).2 = [] ∧
    ("15" ≠ encodeURIComponent "15" →
      (resolveRtv testEnv (some "15") none).1 =
        .error ("Invalid runtime version specified: " ++ "15")) :=
  claim6_theorem testEnv none "15" (by decide)

/-- C6 (counterexample): the empty string IS an `encodeURIComponent` fixpoint,
yet when supplied as the version the code treats it as absent: the
version-discovery collaborator is consulted (a `queryVersion` event) and, when
it finds nothing, resolution fails instead of succeeding with "". -/
theorem claim6_counterexample :
    encodeURIComponent "" = "" ∧
    resolveRtv testEnvNoVersion (some "") none =
      (.error "Could not determine runtime version to download",
        [Event.queryVersion none]) :=
  ⟨rfl, rfl⟩

theorem splitNL_cons_ne (c : Char) (rest : List Char) (h1 : c ≠ '\n') (h2 : c ≠ '\r') :
    splitNL (c :: rest) = consHead c (splitNL rest) := by
  rw [splitNL.eq_def]
  split
  · simp_all
  · simp_all
  · simp_all
  · rename_i heq
    obtain ⟨rfl, rfl⟩ := List.cons.injEq .. ▸ heq
    rfl

theorem splitNL_clean : ∀ (l : List Char),
    (∀ c ∈ l, c ≠ '\n' ∧ c ≠ '\r') → splitNL l = [l]
  | [], _ => rfl
  | c :: rest, h => by
    obtain ⟨h1, h2⟩ := h c (List.mem_cons_self c rest)
    rw [splitNL_cons_ne c rest h1 h2,
      splitNL_clean rest (fun d hd => h d (List.mem_cons_of_mem c hd))]
    rfl

theorem splitNL_append_nl : ∀ (l rest : List Char),
    (∀ c ∈ l, c ≠ '\n' ∧ c ≠ '\r') →
    splitNL (l ++ '\n' :: rest) = l :: splitNL rest
  | [], rest, _ => rfl
  | c :: l', rest, h => by
    obtain ⟨h1, h2⟩ := h c (List.mem_cons_self c l')
    rw [List.cons_append, splitNL_cons_ne c _ h1 h2,
      splitNL_append_nl l' rest (fun d hd => h d (List.mem_cons_of_mem c hd))]
    rfl

theorem splitNL_append_crlf : ∀ (l rest : List Char),
    (∀ c ∈ l, c ≠ '\n' ∧ c ≠ '\r') →
    splitNL (l ++ '\r' :: '\n' :: rest) = l :: splitNL rest
  | [], rest, _ => rfl
  | c :: l', rest, h => by
    obtain ⟨h1, h2⟩ := h c (List.mem_cons_self c l')
    rw [List.cons_append, splitNL_cons_ne c _ h1 h2,
      splitNL_append_crlf l' rest (fun d hd => h d (List.mem_cons_of_mem c hd))]
    rfl

theorem splitNL_join_nl : ∀ (css : List (List Char)), css ≠ [] →
    (∀ l ∈ css, ∀ c ∈ l, c ≠ '\n' ∧ c ≠ '\r') →
    splitNL (joinWithSep ['\n'] css) = css
  | [], hne, _ => absurd rfl hne
  | [l], _, h => by
    rw [show joinWithSep ['\n'] [l] = l from rfl]
    exact splitNL_clean l (h l (List.mem_cons_self l []))
  | l :: l2 :: rest, _, h => by
    have hj : joinWithSep ['\n'] (l :: l2 :: rest) =
        l ++ '\n' :: joinWithSep ['\n'] (l2 :: rest) := by
      show l ++ ['\n'] ++ joinWithSep ['\n'] (l2 :: rest) = _
      rw [List.append_assoc]
      rfl
    rw [hj, splitNL_append_nl l _ (h l (List.mem_cons_self l _)),
      splitNL_join_nl (l2 :: rest) (by simp)
        (fun a ha => h a (List.mem_cons_of_mem l ha))]

theorem splitNL_join_crlf : ∀ (css : List (List Char)), css ≠ [] →
    (∀ l ∈ css, ∀ c ∈ l, c ≠ '\n' ∧ c ≠ '\r') →
    splitNL (joinWithSep ['\r', '\n'] css) = css
  | [], hne, _ => absurd rfl hne
  | [l], _, h => by
    rw [show joinWithSep ['\r', '\n'] [l] = l from rfl]
    exact splitNL_clean l (h l (List.mem_cons_self l []))
  | l :: l2 :: rest, _, h => by
    have hj : joinWithSep ['\r', '\n'] (l :: l2 :: rest) =
        l ++ '\r' :: '\n' :: joinWithSep ['\r', '\n'] (l2 :: rest) := by
      show l ++ ['\r', '\n'] ++ joinWithSep ['\r', '\n'] (l2 :: rest) = _
      rw [List.append_assoc]
      rfl
    rw [hj, splitNL_append_crlf l _ (h l (List.mem_cons_self l _)),
      splitNL_join_crlf (l2 :: rest) (by simp)
        (fun a ha => h a (List.mem_cons_of_mem l ha))]

theorem splitNewlines_join (sep : List Char) (ls : List String)
    (hjoin : splitNL (joinWithSep sep (ls.map String.toList)) = ls.map String.toList) :
    splitNewlines ⟨joinWithSep sep (ls.map String.toList)⟩ = ls := by
  unfold splitNewlines
  rw [show (⟨joinWithSep sep (ls.map String.toList)⟩ : String).toList =
      joinWithSep sep (ls.map String.toList) from rfl, hjoin, List.map_map]
  have : (fun l => (⟨l⟩ : String)) ∘ String.toList = id := by
    funext s
    exact stringMk_toList s
  rw [this, List.map_id]

/-- C7: for every manifest response body, the parsed entry sequence is
obtained by splitting the body on `\n` or `\r\n`, dropping empty lines,
preserving the remaining lines in order, and mapping each line L to an entry
with relative path L and absolute URL `baseUrl ++ L`; the entry count equals
the number of nonempty lines. -/
theorem claim7_theorem (base : String) (ls : List String) (hne : ls ≠ [])
    (hclean : ∀ l ∈ ls, ∀ c ∈ l.toList, c ≠ '\n' ∧ c ≠ '\r') :
    parseFilesTxt base ⟨joinWithSep ['\n'] (ls.map String.toList)⟩ =
      (ls.filter (fun l => l ≠ "")).map (fun fp => { filepath := fp, url := base ++ fp }) ∧
    parseFilesTxt base ⟨joinWithSep ['\r', '\n'] (ls.map String.toList)⟩ =
      (ls.filter (fun l => l ≠ "")).map (fun fp => { filepath := fp, url := base ++ fp }) ∧
    (parseFilesTxt base ⟨joinWithSep ['\n'] (ls.map String.toList)⟩).length =
      (ls.filter (fun l => l ≠ "")).length := by
  have hclean' : ∀ l ∈ ls.map String.toList, ∀ c ∈ l, c ≠ '\n' ∧ c ≠ '\r' := by
    intro l hl c hc
    obtain ⟨s, hs, rfl⟩ := List.mem_map.mp hl
    exact hclean s hs c hc
  have hne' : ls.map String.toList ≠ [] := by
    intro hc
    exact hne (List.map_eq_nil_iff.mp hc)
  have h1 : parseFilesTxt base ⟨joinWithSep ['\n'] (ls.map String.toList)⟩ =
      (ls.filter (fun l => l ≠ "")).map (fun fp => { filepath := fp, url := base ++ fp }) := by
    unfold parseFilesTxt
    rw [splitNewlines_join ['\n'] ls (splitNL_join_nl (ls.map String.toList) hne' hclean')]
  refine ⟨h1, ?_, ?_⟩
  · unfold parseFilesTxt
    rw [splitNewlines_join ['\r', '\n'] ls
      (splitNL_join_crlf (ls.map String.toList) hne' hclean')]
  · rw [h1, List.length_map]

theorem claim7_witness :
    parseFilesTxt "B/" ⟨joinWithSep ['\n'] (["files.txt", "", "a.js"].map String.toList)⟩ =
      (["files.txt", "", "a.js"].filter (fun l => l ≠ "")).map
        (fun fp => { filepath := fp, url := "B/" ++ fp }) :=
  ( claim7_theorem "B/" ["files.txt", "", "a.js"] (by simp) (by decide)).1


theorem resolveRtv_none (env : Env) (a : Option String) :
    resolveRtv env none a = rtvQuery env a := rfl

theorem resolveRtv_some (env : Env) (a : Option String) (s : String) :
    resolveRtv env (some s) a =
      (if s = "" then rtvQuery env a
       else if s ≠ encodeURIComponent s then
         (.error ("Invalid runtime version specified: " ++ s), [])
       else (.ok s, [])) := rfl

theorem rtvQuery_events (env : Env) (a : Option String) :
    (rtvQuery env a).2 = [Event.queryVersion a] := by
  unfold rtvQuery
  cases env.currentVersion a with
  | none => rfl
  | some v =>
    by_cases hv : v = ""
    · simp [hv]
    · simp [hv]

theorem resolveRtv_events (env : Env) (rtv a : Option String) :
    (resolveRtv env rtv a).2 = [] ∨ (resolveRtv env rtv a).2 = [Event.queryVersion a] := by
  cases rtv with
  | none =>
    rw [resolveRtv_none]
    exact Or.inr (rtvQuery_events env a)
  | some s =>
    rw [resolveRtv_some]
    by_cases hs : s = ""
    · rw [if_pos hs]
      exact Or.inr (rtvQuery_events env a)
    · rw [if_neg hs]
      by_cases h : s ≠ encodeURIComponent s
      · rw [if_pos h]
        exact Or.inl rfl
      · rw [if_neg h]
        exact Or.inl rfl

theorem resolveRtv_events_not_mutation (env : Env) (rtv a : Option String) :
    ∀ e ∈ (resolveRtv env rtv a).2, e.isMutation = false := by
  intro e he
  rcases resolveRtv_events env rtv a with h | h <;> rw [h] at he
  · cases he
  · rcases List.mem_singleton.mp he with rfl
    rfl

theorem mkdirsGo_ok (env : Env) (dest : String) (hmk : ∀ p, env.mkdirErr p = none) :
    ∀ dirs, (mkdirsGo env dest dirs).1 = .ok ()
  | [] => rfl
  | dir :: rest => by
    unfold mkdirsGo
    by_cases hex : env.dirExists (joinPath env dest
      ⟨joinWithSep (pathSep env).toList (splitOnChar '/' dir.toList)⟩)
    · simp only [hex, if_true]
      exact mkdirsGo_ok env dest hmk rest
    · simp only [hex, if_false, Bool.false_eq_true, hmk]
      exact mkdirsGo_ok env dest hmk rest

theorem createSubdirectories_ok (env : Env) (files : List FileEntry) (dest : String)
    (hmk : ∀ p, env.mkdirErr p = none) :
    (createSubdirectories_ env files dest).1 = .ok () := by
  unfold createSubdirectories_
  exact mkdirsGo_ok env dest hmk _

theorem mkdirsGo_events (env : Env) (dest : String) :
    ∀ dirs, ∀ e ∈ (mkdirsGo env dest dirs).2, ∃ p, e = Event.mkdir p
  | [], e, he => absurd he (List.not_mem_nil e)
  | dir :: rest, e, he => by
    unfold mkdirsGo at he
    by_cases hex : env.dirExists (joinPath env dest
      ⟨joinWithSep (pathSep env).toList (splitOnChar '/' dir.toList)⟩)
    · simp only [hex, if_true] at he
      exact mkdirsGo_events env dest rest e he
    · simp only [hex, if_false, Bool.false_eq_true] at he
      cases hmk : env.mkdirErr (joinPath env dest
        ⟨joinWithSep (pathSep env).toList (splitOnChar '/' dir.toList)⟩) with
      | some m =>
        rw [hmk] at he
        rcases List.mem_singleton.mp he with rfl
        exact ⟨_, rfl⟩
      | none =>
        rw [hmk] at he
        rcases List.mem_cons.mp he with rfl | he'
        · exact ⟨_, rfl⟩
        · exact mkdirsGo_events env dest rest e he'

theorem createSubdirectories_events (env : Env) (files : List FileEntry) (dest : String) :
    ∀ e ∈ (createSubdirectories_ env files dest).2, ∃ p, e = Event.mkdir p := by
  unfold createSubdirectories_
  exact mkdirsGo_events env dest _

theorem clearDirectory_readdir_ok (env : Env) (d : String) (l : List DirEnt)
    (hrd : env.readdir d = .ok l) :
    clearDirectory_ env d =
      (match (clearErrs env d l).head? with
       | some m => (.error m, Event.clearDir d :: clearEvents env d l)
       | none => (.ok (), Event.clearDir d :: clearEvents env d l)) := by
  unfold clearDirectory_
  rw [hrd]

theorem clearDirectory_events (env : Env) (d : String) (l : List DirEnt)
    (hrd : env.readdir d = .ok l) :
    (clearDirectory_ env d).2 = Event.clearDir d :: clearEvents env d l := by
  rw [clearDirectory_readdir_ok env d l hrd]
  cases hh : (clearErrs env d l).head? <;> rfl

theorem clearDirectory_ok (env : Env) (d : String) (l : List DirEnt)
    (hrd : env.readdir d = .ok l)
    (hrm : ∀ p, env.rmdirErr p = none) (hun : ∀ p, env.unlinkErr p = none) :
    (clearDirectory_ env d).1 = .ok () := by
  rw [clearDirectory_readdir_ok env d l hrd]
  have hnil : clearErrs env d l = [] := by
    unfold clearErrs
    rw [List.filterMap_eq_nil_iff]
    intro item _
    by_cases h : item.isDir <;> simp [h, hrm, hun]
  rw [hnil]
  rfl

theorem clearDirectory_events_cover (env : Env) (d : String) (l : List DirEnt)
    (hrd : env.readdir d = .ok l) :
    ∀ item ∈ l,
      (if item.isDir then Event.rmdirRec (joinPath env d item.name)
       else Event.unlink (joinPath env d item.name)) ∈ (clearDirectory_ env d).2 := by
  intro item hitem
  rw [clearDirectory_events env d l hrd]
  exact List.mem_cons_of_mem _ (List.mem_map.mpr ⟨item, hitem, rfl⟩)

theorem fetchAndSave_fetch_error (env : Env) (d : String) (f : FileEntry) (m : String)
    (hf : env.fetch f.url = .error m) :
    fetchAndSaveAsync_ env d f = (.error m, [Event.fetch f.url]) := by
  unfold fetchAndSaveAsync_
  rw [hf]

theorem fetchAndSave_not_ok (env : Env) (d : String) (f : FileEntry) (res : Response)
    (hf : env.fetch f.url = .ok res) (hok : res.ok = false) :
    fetchAndSaveAsync_ env d f =
      (.error ("Failed to fetch " ++ f.url), [Event.fetch f.url]) := by
  unfold fetchAndSaveAsync_
  rw [hf]
  simp [hok]

theorem fetchAndSave_ok_eq (env : Env) (d : String) (f : FileEntry) (res : Response)
    (hf : env.fetch f.url = .ok res) (hok : res.ok = true) :
    fetchAndSaveAsync_ env d f =
      (match env.writeErr (joinPath env d f.filepath) (savedContent f.filepath res.text) with
       | some m => (.error m, [Event.fetch f.url,
           Event.write (joinPath env d f.filepath) (savedContent f.filepath res.text)])
       | none => (.ok (), [Event.fetch f.url,
           Event.write (joinPath env d f.filepath) (savedContent f.filepath res.text)])) := by
  unfold fetchAndSaveAsync_
  rw [hf]
  simp [hok]

theorem fetchAndSave_ok_shape (env : Env) (d : String) (f : FileEntry)
    (h : (fetchAndSaveAsync_ env d f).1 = .ok ()) :
    ∃ res, env.fetch f.url = .ok res ∧ res.ok = true ∧
      (fetchAndSaveAsync_ env d f).2 =
        [Event.fetch f.url,
         Event.write (joinPath env d f.filepath) (savedContent f.filepath res.text)] := by
  cases hf : env.fetch f.url with
  | error m =>
    rw [fetchAndSave_fetch_error env d f m hf] at h
    simp at h
  | ok res =>
    cases hok : res.ok with
    | false =>
      rw [fetchAndSave_not_ok env d f res hf hok] at h
      simp at h
    | true =>
      rw [fetchAndSave_ok_eq env d f res hf hok] at h
      cases hw : env.writeErr (joinPath env d f.filepath) (savedContent f.filepath res.text) with
      | some m =>
        rw [hw] at h
        simp at h
      | none =>
        refine ⟨res, rfl, hok, ?_⟩
        rw [fetchAndSave_ok_eq env d f res hf hok, hw]

theorem fetchAndSave_events_shape (env : Env) (d : String) (f : FileEntry) :
    ∀ e ∈ (fetchAndSaveAsync_ env d f).2,
      e = Event.fetch f.url ∨
      ∃ c, e = Event.write (joinPath env d f.filepath) c := by
  intro e he
  cases hf : env.fetch f.url with
  | error m =>
    rw [fetchAndSave_fetch_error env d f m hf] at he
    rcases List.mem_singleton.mp he with rfl
    exact Or.inl rfl
  | ok res =>
    cases hok : res.ok with
    | false =>
      rw [fetchAndSave_not_ok env d f res hf hok] at he
      rcases List.mem_singleton.mp he with rfl
      exact Or.inl rfl
    | true =>
      rw [fetchAndSave_ok_eq env d f res hf hok] at he
      cases hw : env.writeErr (joinPath env d f.filepath) (savedContent f.filepath res.text) with
      | some m =>
        rw [hw] at he
        rcases List.mem_cons.mp he with rfl | he'
        · exact Or.inl rfl
        · rcases List.mem_singleton.mp he' with rfl
          exact Or.inr ⟨_, rfl⟩
      | none =>
        rw [hw] at he
        rcases List.mem_cons.mp he with rfl | he'
        · exact Or.inl rfl
        · rcases List.mem_singleton.mp he' with rfl
          exact Or.inr ⟨_, rfl⟩

theorem firstFileError_none_iff (env : Env) (d : String) (files : List FileEntry) :
    firstFileError env d files = none ↔
      ∀ f ∈ files, (fetchAndSaveAsync_ env d f).1 = .ok () := by
  unfold firstFileError
  rw [List.head?_eq_none_iff, List.filterMap_eq_nil_iff]
  constructor
  · intro h f hf
    have hh := h f hf
    cases hr : (fetchAndSaveAsync_ env d f).1 with
    | error m =>
      rw [hr] at hh
      simp at hh
    | ok u =>
      cases u
      rfl
  · intro h f hf
    rw [h f hf]

theorem materializeFiles_fst (env : Env) (d : String) (files : List FileEntry) :
    (materializeFiles env d files).1 =
      (match firstFileError env d files with
       | some m => .error m
       | none => .ok ()) := by
  unfold materializeFiles
  cases hh : firstFileError env d files <;> rfl

theorem materializeFiles_events (env : Env) (d : String) (files : List FileEntry) :
    (materializeFiles env d files).2 =
      (files.map (fun f => (fetchAndSaveAsync_ env d f).2)).flatten := by
  unfold materializeFiles
  cases hh : firstFileError env d files <;> rfl

theorem getFramework_tilde_err (o : Options) (env : Env) (e : String)
    (h : expandTildeStep env o.dest = .error e) :
    getFramework o env = (.error e, []) := by
  unfold getFramework
  rw [h]

theorem getFramework_dest_none (o : Options) (env : Env)
    (h : expandTildeStep env o.dest = .ok none) :
    getFramework o env =
      (.ok { status := false, error := "Directory not specified", count := 0,
             url := "", dest := none, rtv := "" }, []) := by
  unfold getFramework
  rw [h]

theorem getFramework_dest_empty (o : Options) (env : Env)
    (h : expandTildeStep env o.dest = .ok (some "")) :
    getFramework o env =
      (.ok { status := false, error := "Directory not specified", count := 0,
             url := "", dest := some "", rtv := "" }, []) := by
  unfold getFramework
  rw [h]
  simp

theorem getFramework_assert_err (o : Options) (env : Env) (d e : String)
    (h1 : expandTildeStep env o.dest = .ok (some d)) (h2 : d ≠ "")
    (h3 : env.assertDirErr d = some e) :
    getFramework o env =
      (.ok { status := false, error := e, count := 0,
             url := "", dest := some d, rtv := "" }, []) := by
  unfold getFramework
  simp only [h1, if_neg h2, h3]

theorem getFramework_rtv_err (o : Options) (env : Env) (d e : String) (evs1 : List Event)
    (h1 : expandTildeStep env o.dest = .ok (some d)) (h2 : d ≠ "")
    (h3 : env.assertDirErr d = none)
    (h4 : resolveRtv env o.rtv o.ampUrlPrefix = (.error e, evs1)) :
    getFramework o env =
      (.ok { status := false, error := e, count := 0,
             url := "", dest := some d, rtv := "" }, evs1) := by
  unfold getFramework
  simp only [h1, if_neg h2, h3, h4]

theorem getFramework_origin_err (o : Options) (env : Env) (d v e : String) (evs1 : List Event)
    (h1 : expandTildeStep env o.dest = .ok (some d)) (h2 : d ≠ "")
    (h3 : env.assertDirErr d = none)
    (h4 : resolveRtv env o.rtv o.ampUrlPrefix = (.ok v, evs1))
    (h5 : resolveOrigin env o.ampUrlPrefix = .error e) :
    getFramework o env =
      (.ok { status := false, error := e, count := 0,
             url := "", dest := some d, rtv := v }, evs1) := by
  unfold getFramework
  simp only [h1, if_neg h2, h3, h4, h5]

theorem getFramework_manifest_err (o : Options) (env : Env) (d v p e : String)
    (evs1 : List Event)
    (h1 : expandTildeStep env o.dest = .ok (some d)) (h2 : d ≠ "")
    (h3 : env.assertDirErr d = none)
    (h4 : resolveRtv env o.rtv o.ampUrlPrefix = (.ok v, evs1))
    (h5 : resolveOrigin env o.ampUrlPrefix = .ok p)
    (h6 : fetchManifest env (frameworkBaseUrlOf p v ++ FRAMEWORK_FILES_TXT)
      (frameworkBaseUrlOf p v) = .error e) :
    getFramework o env =
      (.ok { status := false, error := e, count := 0,
             url := frameworkBaseUrlOf p v, dest := some d, rtv := v },
       evs1 ++ [Event.fetch (frameworkBaseUrlOf p v ++ FRAMEWORK_FILES_TXT)]) := by
  unfold getFramework
  simp only [h1, if_neg h2, h3, h4, h5, h6]

theorem getFramework_main_eq (o : Options) (env : Env) (d v p : String)
    (evs1 : List Event) (files : List FileEntry)
    (h1 : expandTildeStep env o.dest = .ok (some d)) (h2 : d ≠ "")
    (h3 : env.assertDirErr d = none)
    (h4 : resolveRtv env o.rtv o.ampUrlPrefix = (.ok v, evs1))
    (h5 : resolveOrigin env o.ampUrlPrefix = .ok p)
    (h6 : fetchManifest env (frameworkBaseUrlOf p v ++ FRAMEWORK_FILES_TXT)
      (frameworkBaseUrlOf p v) = .ok files) :
    getFramework o env =
      (match (if o.clear ≠ some false then clearDirectory_ env d else (.ok (), [])) with
       | (.error m, evsC) =>
         (.error m,
          evs1 ++ [Event.fetch (frameworkBaseUrlOf p v ++ FRAMEWORK_FILES_TXT)] ++ evsC)
       | (.ok _, evsC) =>
         match createSubdirectories_ env files d with
         | (.error m, evsD) =>
           (.error m,
            evs1 ++ [Event.fetch (frameworkBaseUrlOf p v ++ FRAMEWORK_FILES_TXT)] ++
              evsC ++ evsD)
         | (.ok _, evsD) =>
           match materializeFiles env d files with
           | (.error m, evsM) =>
             (.ok { status := false, error := "Failed to download AMP framework\n" ++ m,
                    count := files.length, url := frameworkBaseUrlOf p v,
                    dest := some d, rtv := v },
              evs1 ++ [Event.fetch (frameworkBaseUrlOf p v ++ FRAMEWORK_FILES_TXT)] ++
                evsC ++ evsD ++ evsM)
           | (.ok _, evsM) =>
             (.ok { status := true, error := "", count := files.length,
                    url := frameworkBaseUrlOf p v, dest := some d, rtv := v },
              evs1 ++ [Event.fetch (frameworkBaseUrlOf p v ++ FRAMEWORK_FILES_TXT)] ++
                evsC ++ evsD ++ evsM)) := by
  unfold getFramework
  simp only [h1, if_neg h2, h3, h4, h5, h6]

theorem fetchManifest_fetch_ok_eq (env : Env) (u b : String) (res : Response)
    (hf : env.fetch u = .ok res) (hok : res.ok = true) :
    fetchManifest env u b =
      (if (parseFilesTxt b res.text).any (fun f => f.filepath = FRAMEWORK_FILES_TXT) then
        .ok (parseFilesTxt b res.text)
      else .error ("Unable to read AMP framework files listing\nExpected " ++
        FRAMEWORK_FILES_TXT ++ " in file listing, but it was not found.")) := by
  unfold fetchManifest
  rw [hf]
  simp [hok]

theorem fetchManifest_fetch_err_eq (env : Env) (u b m : String)
    (hf : env.fetch u = .error m) :
    fetchManifest env u b =
      .error ("Unable to read AMP framework files listing\n" ++ m) := by
  unfold fetchManifest
  rw [hf]

theorem fetchManifest_not_ok_eq (env : Env) (u b : String) (res : Response)
    (hf : env.fetch u = .ok res) (hok : res.ok = false) :
    fetchManifest env u b =
      .error ("Unable to fetch AMP framework files listing: " ++ u) := by
  unfold fetchManifest
  rw [hf]
  simp [hok]

theorem fetchManifest_ok_shape (env : Env) (u b : String) (files : List FileEntry)
    (h : fetchManifest env u b = .ok files) :
    files.any (fun f => f.filepath = FRAMEWORK_FILES_TXT) = true ∧
    ∃ res, env.fetch u = .ok res ∧ res.ok = true ∧ files = parseFilesTxt b res.text := by
  cases hf : env.fetch u with
  | error m =>
    rw [fetchManifest_fetch_err_eq env u b m hf] at h
    simp at h
  | ok res =>
    cases hok : res.ok with
    | false =>
      rw [fetchManifest_not_ok_eq env u b res hf hok] at h
      simp at h
    | true =>
      rw [fetchManifest_fetch_ok_eq env u b res hf hok] at h
      by_cases ha : (parseFilesTxt b res.text).any
          (fun f => f.filepath = FRAMEWORK_FILES_TXT) = true
      · rw [if_pos ha] at h
        have hfiles : parseFilesTxt b res.text = files := by
          injection h
        exact ⟨hfiles ▸ ha, res, rfl, hok, hfiles.symm⟩
      · rw [if_neg ha] at h
        simp at h

theorem parseFilesTxt_mem_url (b t : String) :
    ∀ f ∈ parseFilesTxt b t, f.url = b ++ f.filepath := by
  intro f hf
  unfold parseFilesTxt at hf
  obtain ⟨fp, _, rfl⟩ := List.mem_map.mp hf
  rfl

theorem except_pair_eta (x : Except String Unit × List Event)
    (h : x.1 = Except.ok ()) : x = (Except.ok (), x.2) := by
  obtain ⟨a, b⟩ := x
  subst h
  rfl

theorem except_pair_eta_err (x : Except String Unit × List Event) (m : String)
    (h : x.1 = Except.error m) : x = (Except.error m, x.2) := by
  obtain ⟨a, b⟩ := x
  subst h
  rfl

theorem pair_ok_inj {r rec : Ret} {t tr : List Event}
    (h : ((Except.ok r : Except String Ret), t) = (Except.ok rec, tr)) :
    r = rec ∧ t = tr := by
  have h1 := congrArg Prod.fst h
  have h2 := congrArg Prod.snd h
  simp only [] at h1 h2
  refine ⟨?_, h2⟩
  injection h1

/-- C5: when the earlier stages succeed and the manifest fetch returns an OK
HTTP response whose parsed entries do not include `files.txt`, the run returns
a failure result carrying the manifest-validity error (success flag false,
file count 0), and the trace contains no directory clearing, no directory
creation and no file write. -/
theorem claim5_theorem (o : Options) (env : Env) (d v p : String)
    (evs1 : List Event) (res : Response)
    (h1 : expandTildeStep env o.dest = .ok (some d)) (h2 : d ≠ "")
    (h3 : env.assertDirErr d = none)
    (h4 : resolveRtv env o.rtv o.ampUrlPrefix = (.ok v, evs1))
    (h5 : resolveOrigin env o.ampUrlPrefix = .ok p)
    (hfetch : env.fetch (frameworkBaseUrlOf p v ++ FRAMEWORK_FILES_TXT) = .ok res)
    (hok : res.ok = true)
    (hself : (parseFilesTxt (frameworkBaseUrlOf p v) res.text).any
      (fun f => f.filepath = FRAMEWORK_FILES_TXT) = false) :
    getFramework o env =
      (.ok { status := false,
             error := "Unable to read AMP framework files listing\nExpected " ++
               FRAMEWORK_FILES_TXT ++ " in file listing, but it was not found.",
             count := 0, url := frameworkBaseUrlOf p v, dest := some d, rtv := v },
       evs1 ++ [Event.fetch (frameworkBaseUrlOf p v ++ FRAMEWORK_FILES_TXT)]) ∧
    ∀ e ∈ (getFramework o env).2, e.isMutation = false := by
  have h6 : fetchManifest env (frameworkBaseUrlOf p v ++ FRAMEWORK_FILES_TXT)
      (frameworkBaseUrlOf p v) =
        .error ("Unable to read AMP framework files listing\nExpected " ++
          FRAMEWORK_FILES_TXT ++ " in file listing, but it was not found.") := by
    rw [fetchManifest_fetch_ok_eq env (frameworkBaseUrlOf p v ++ FRAMEWORK_FILES_TXT)
      (frameworkBaseUrlOf p v) res hfetch hok]
    simp [hself]
  have heq := getFramework_manifest_err o env d v p _ evs1 h1 h2 h3 h4 h5 h6
  refine ⟨heq, ?_⟩
  rw [heq]
  intro e he
  rcases List.mem_append.mp he with h | h
  · have hevs : (resolveRtv env o.rtv o.ampUrlPrefix).2 = evs1 := by rw [h4]
    exact resolveRtv_events_not_mutation env o.rtv o.ampUrlPrefix e (hevs ▸ h)
  · rcases List.mem_singleton.mp h with rfl
    rfl

theorem claim5_witness :
    getFramework oT testEnvNoSelf =
      (.ok { status := false,
             error := "Unable to read AMP framework files listing\nExpected " ++
               FRAMEWORK_FILES_TXT ++ " in file listing, but it was not found.",
             count := 0, url := frameworkBaseUrlOf "https://example.com" "15",
             dest := some "dest", rtv := "15" },
       [Event.fetch (frameworkBaseUrlOf "https://example.com" "15" ++ FRAMEWORK_FILES_TXT)]) ∧
    ∀ e ∈ (getFramework oT testEnvNoSelf).2, e.isMutation = false :=
  claim5_theorem oT testEnvNoSelf "dest" "15" "https://example.com" []
    { ok := true, text := "a.js\nb.css\n" } rfl (by decide) rfl rfl rfl rfl rfl (by decide)

/-- C9: on every run that reaches stage 5 with all per-file operations
succeeding, the mandatory `files.txt` entry is materialized like any other
entry: the manifest URL is fetched at least twice (once for the manifest,
once as a stage-5 entry) and `files.txt` is written into the destination. -/
theorem claim9_theorem (o : Options) (env : Env) (d v p : String)
    (evs1 : List Event) (files : List FileEntry)
    (h1 : expandTildeStep env o.dest = .ok (some d)) (h2 : d ≠ "")
    (h3 : env.assertDirErr d = none)
    (h4 : resolveRtv env o.rtv o.ampUrlPrefix = (.ok v, evs1))
    (h5 : resolveOrigin env o.ampUrlPrefix = .ok p)
    (h6 : fetchManifest env (frameworkBaseUrlOf p v ++ FRAMEWORK_FILES_TXT)
      (frameworkBaseUrlOf p v) = .ok files)
    (hC : (if o.clear ≠ some false then clearDirectory_ env d
      else ((.ok (), []) : Except String Unit × List Event)).1 = .ok ())
    (hD : (createSubdirectories_ env files d).1 = .ok ())
    (hM : firstFileError env d files = none) :
    2 ≤ List.count (Event.fetch (frameworkBaseUrlOf p v ++ FRAMEWORK_FILES_TXT))
      (getFramework o env).2 ∧
    ∃ c, Event.write (joinPath env d FRAMEWORK_FILES_TXT) c ∈ (getFramework o env).2 := by
  have hmat1 : (materializeFiles env d files).1 = .ok () := by
    rw [materializeFiles_fst, hM]
  have hmat : materializeFiles env d files =
      (.ok (), (files.map (fun f => (fetchAndSaveAsync_ env d f).2)).flatten) := by
    rw [except_pair_eta _ hmat1, materializeFiles_events]
  have heq2 : getFramework o env =
      (.ok { status := true, error := "", count := files.length,
             url := frameworkBaseUrlOf p v, dest := some d, rtv := v },
       evs1 ++ [Event.fetch (frameworkBaseUrlOf p v ++ FRAMEWORK_FILES_TXT)] ++
         (if o.clear ≠ some false then clearDirectory_ env d
          else ((.ok (), []) : Except String Unit × List Event)).2 ++
         (createSubdirectories_ env files d).2 ++
         (files.map (fun f => (fetchAndSaveAsync_ env d f).2)).flatten) := by
    rw [getFramework_main_eq o env d v p evs1 files h1 h2 h3 h4 h5 h6,
      except_pair_eta _ hC, except_pair_eta _ hD, hmat]
  obtain ⟨hany, res, hres, hresok, hfileseq⟩ := fetchManifest_ok_shape env _ _ files h6
  obtain ⟨f0, hf0mem, hf0p⟩ := List.any_eq_true.mp hany
  have hf0p' : f0.filepath = FRAMEWORK_FILES_TXT := of_decide_eq_true hf0p
  have hf0url : f0.url = frameworkBaseUrlOf p v ++ FRAMEWORK_FILES_TXT := by
    have := parseFilesTxt_mem_url (frameworkBaseUrlOf p v) res.text f0 (hfileseq ▸ hf0mem)
    rw [this, hf0p']
  have hf0ok : (fetchAndSaveAsync_ env d f0).1 = .ok () :=
    (firstFileError_none_iff env d files).mp hM f0 hf0mem
  obtain ⟨res0, _, _, hevshape⟩ := fetchAndSave_ok_shape env d f0 hf0ok
  have hFin : Event.fetch (frameworkBaseUrlOf p v ++ FRAMEWORK_FILES_TXT) ∈
      (files.map (fun f => (fetchAndSaveAsync_ env d f).2)).flatten := by
    rw [List.mem_flatten]
    refine ⟨(fetchAndSaveAsync_ env d f0).2, List.mem_map.mpr ⟨f0, hf0mem, rfl⟩, ?_⟩
    rw [hevshape, hf0url]
    exact List.mem_cons_self _ _
  have hWin : Event.write (joinPath env d FRAMEWORK_FILES_TXT)
      (savedContent f0.filepath res0.text) ∈
      (files.map (fun f => (fetchAndSaveAsync_ env d f).2)).flatten := by
    rw [List.mem_flatten]
    refine ⟨(fetchAndSaveAsync_ env d f0).2, List.mem_map.mpr ⟨f0, hf0mem, rfl⟩, ?_⟩
    rw [hevshape, hf0p']
    exact List.mem_cons_of_mem _ (List.mem_singleton.mpr rfl)
  constructor
  · rw [heq2]
    simp only [List.count_append]
    have c1 : 1 ≤ List.count
        (Event.fetch (frameworkBaseUrlOf p v ++ FRAMEWORK_FILES_TXT))
        [Event.fetch (frameworkBaseUrlOf p v ++ FRAMEWORK_FILES_TXT)] :=
      List.one_le_count_iff.mpr (List.mem_singleton.mpr rfl)
    have c2 : 1 ≤ List.count
        (Event.fetch (frameworkBaseUrlOf p v ++ FRAMEWORK_FILES_TXT))
        ((files.map (fun f => (fetchAndSaveAsync_ env d f).2)).flatten) :=
      List.one_le_count_iff.mpr hFin
    omega
  · refine ⟨savedContent f0.filepath res0.text, ?_⟩
    rw [heq2]
    exact List.mem_append.mpr (Or.inr hWin)

theorem claim9_witness :
    2 ≤ List.count (Event.fetch (frameworkBaseUrlOf "https://example.com" "15" ++
        FRAMEWORK_FILES_TXT)) (getFramework oT testEnv).2 ∧
    ∃ c, Event.write (joinPath testEnv "dest" FRAMEWORK_FILES_TXT) c ∈
      (getFramework oT testEnv).2 :=
  claim9_theorem oT testEnv "dest" "15" "https://example.com" []
    (parseFilesTxt (frameworkBaseUrlOf "https://example.com" "15") "files.txt\nv0/a.js\n")
    rfl (by decide) rfl rfl rfl rfl rfl rfl rfl

/-- C4: for a manifest of N entries (earlier stages succeeding, clearing and
subdirectory creation not failing), the returned result's file count is N
regardless of per-file outcomes; if every per-file fetch-and-save succeeds
the success flag is true, and if at least one fails the success flag is false
and the error message is derived from the first encountered failure's
message. -/
theorem claim4_theorem (o : Options) (env : Env) (d v p : String)
    (evs1 : List Event) (files : List FileEntry)
    (h1 : expandTildeStep env o.dest = .ok (some d)) (h2 : d ≠ "")
    (h3 : env.assertDirErr d = none)
    (h4 : resolveRtv env o.rtv o.ampUrlPrefix = (.ok v, evs1))
    (h5 : resolveOrigin env o.ampUrlPrefix = .ok p)
    (h6 : fetchManifest env (frameworkBaseUrlOf p v ++ FRAMEWORK_FILES_TXT)
      (frameworkBaseUrlOf p v) = .ok files)
    (hC : (if o.clear ≠ some false then clearDirectory_ env d
      else ((.ok (), []) : Except String Unit × List Event)).1 = .ok ())
    (hD : (createSubdirectories_ env files d).1 = .ok ()) :
    ∃ r t, getFramework o env = (.ok r, t) ∧ r.count = files.length ∧
      (firstFileError env d files = none → r.status = true ∧ r.error = "") ∧
      (∀ m, firstFileError env d files = some m →
        r.status = false ∧ r.error = "Failed to download AMP framework\n" ++ m) := by
  have heq := getFramework_main_eq o env d v p evs1 files h1 h2 h3 h4 h5 h6
  rw [except_pair_eta _ hC, except_pair_eta _ hD] at heq
  cases hM : firstFileError env d files with
  | none =>
    have hmat1 : (materializeFiles env d files).1 = .ok () := by
      rw [materializeFiles_fst, hM]
    rw [except_pair_eta _ hmat1] at heq
    refine ⟨_, _, heq, rfl, ?_, ?_⟩
    · intro hn
      exact ⟨rfl, rfl⟩
    · intro m hm
      cases hm
  | some m =>
    have hmat1 : (materializeFiles env d files).1 = .error m := by
      rw [materializeFiles_fst, hM]
    rw [except_pair_eta_err _ m hmat1] at heq
    refine ⟨_, _, heq, rfl, ?_, ?_⟩
    · intro hn
      cases hn
    · intro m' hm'
      injection hm' with hmm
      subst hmm
      exact ⟨rfl, rfl⟩

theorem claim4_witness :
    ∃ r t, getFramework oT testEnvOneFail = (.ok r, t) ∧
      r.count = (parseFilesTxt (frameworkBaseUrlOf "https://example.com" "15")
        "files.txt\na.js\n").length ∧
      (firstFileError testEnvOneFail "dest"
          (parseFilesTxt (frameworkBaseUrlOf "https://example.com" "15")
            "files.txt\na.js\n") = none → r.status = true ∧ r.error = "") ∧
      (∀ m, firstFileError testEnvOneFail "dest"
          (parseFilesTxt (frameworkBaseUrlOf "https://example.com" "15")
            "files.txt\na.js\n") = some m →
        r.status = false ∧ r.error = "Failed to download AMP framework\n" ++ m) :=
  claim4_theorem oT testEnvOneFail "dest" "15" "https://example.com" []
    (parseFilesTxt (frameworkBaseUrlOf "https://example.com" "15") "files.txt\na.js\n")
    rfl (by decide) rfl rfl rfl rfl rfl rfl

theorem expandTilde_total (env : Env) (dest : Option String)
    (hdest : dest ≠ none ∨ env.windows = true) :
    ∃ d', expandTildeStep env dest = .ok d' := by
  unfold expandTildeStep
  by_cases hw : env.windows
  · simp [hw]
  · rcases hdest with hd | hd
    · cases dest with
      | none => exact absurd rfl hd
      | some d =>
        simp only [hw, Bool.false_eq_true, if_false]
        by_cases ht : firstSegment (pathSepChar env) d.toList = ['~']
        · rw [if_pos ht]
          exact ⟨_, rfl⟩
        · rw [if_neg ht]
          exact ⟨_, rfl⟩
    · exact absurd hd hw

theorem expandTilde_empty (env : Env) : expandTildeStep env (some "") = .ok (some "") := by
  unfold expandTildeStep
  by_cases hw : env.windows
  · simp [hw]
  · simp [hw, firstSegment]

/-- C1 (amended): `getFramework` settles by returning a result object (it
never rejects) for all failures in destination validation (given a DEFINED
destination), version and origin resolution, manifest fetch/validation and
per-file fetch-and-save, PROVIDED that directory clearing (readdir, rmdir,
unlink) and subdirectory creation (mkdir) do not themselves fail; an empty
destination path yields a returned result whose error is the configuration
message "Directory not specified".  (An undefined destination on non-Windows
raises, and clearing/mkdir failures reject — see the counterexample.) -/
theorem claim1_theorem (o : Options) (env : Env)
    (hdest : o.dest ≠ none ∨ env.windows = true)
    (hrd : ∀ dd, ∃ l, env.readdir dd = .ok l)
    (hrm : ∀ pp, env.rmdirErr pp = none)
    (hun : ∀ pp, env.unlinkErr pp = none)
    (hmk : ∀ pp, env.mkdirErr pp = none) :
    ∃ r t, getFramework o env = (.ok r, t) ∧
      (o.dest = some "" → r.error = "Directory not specified" ∧ r.status = false) := by
  obtain ⟨d', htilde⟩ := expandTilde_total env o.dest hdest
  have hempty : o.dest = some "" → d' = some "" := by
    intro hoe
    rw [hoe, expandTilde_empty env] at htilde
    injection htilde with h
    exact h.symm
  cases d' with
  | none =>
    refine ⟨_, _, getFramework_dest_none o env htilde, ?_⟩
    intro hoe
    cases hempty hoe
  | some d =>
    by_cases hd : d = ""
    · subst hd
      exact ⟨_, _, getFramework_dest_empty o env htilde, fun _ => ⟨rfl, rfl⟩⟩
    · have hne : o.dest = some "" → False := by
        intro hoe
        injection hempty hoe with h
        exact hd h
      cases har : env.assertDirErr d with
      | some e =>
        exact ⟨_, _, getFramework_assert_err o env d e htilde hd har,
          fun hoe => (hne hoe).elim⟩
      | none =>
        cases hres : resolveRtv env o.rtv o.ampUrlPrefix with
        | mk fst1 evs1 =>
          cases fst1 with
          | error e =>
            exact ⟨_, _, getFramework_rtv_err o env d e evs1 htilde hd har hres,
              fun hoe => (hne hoe).elim⟩
          | ok v =>
            cases ho : resolveOrigin env o.ampUrlPrefix with
            | error e =>
              exact ⟨_, _, getFramework_origin_err o env d v e evs1 htilde hd har hres ho,
                fun hoe => (hne hoe).elim⟩
            | ok p =>
              cases hman : fetchManifest env
                  (frameworkBaseUrlOf p v ++ FRAMEWORK_FILES_TXT) (frameworkBaseUrlOf p v) with
              | error e =>
                exact ⟨_, _,
                  getFramework_manifest_err o env d v p e evs1 htilde hd har hres ho hman,
                  fun hoe => (hne hoe).elim⟩
              | ok files =>
                have heq := getFramework_main_eq o env d v p evs1 files htilde hd har hres ho hman
                have hC : (if o.clear ≠ some false then clearDirectory_ env d
                    else ((.ok (), []) : Except String Unit × List Event)).1 = .ok () := by
                  by_cases hc : o.clear ≠ some false
                  · rw [if_pos hc]
                    obtain ⟨l, hl⟩ := hrd d
                    exact clearDirectory_ok env d l hl hrm hun
                  · rw [if_neg hc]
                have hD := createSubdirectories_ok env files d hmk
                rw [except_pair_eta _ hC, except_pair_eta _ hD] at heq
                cases hM : firstFileError env d files with
                | none =>
                  have hmat1 : (materializeFiles env d files).1 = .ok () := by
                    rw [materializeFiles_fst, hM]
                  rw [except_pair_eta _ hmat1] at heq
                  exact ⟨_, _, heq, fun hoe => (hne hoe).elim⟩
                | some m =>
                  have hmat1 : (materializeFiles env d files).1 = .error m := by
                    rw [materializeFiles_fst, hM]
                  rw [except_pair_eta_err _ m hmat1] at heq
                  exact ⟨_, _, heq, fun hoe => (hne hoe).elim⟩

theorem claim1_witness :
    ∃ r t, getFramework { oT with dest := some "" } testEnv = (.ok r, t) ∧
      (({ oT with dest := some "" } : Options).dest = some "" →
        r.error = "Directory not specified" ∧ r.status = false) :=
  claim1_theorem { oT with dest := some "" } testEnv (Or.inr rfl)
    (fun _ => ⟨[], rfl⟩) (fun _ => rfl) (fun _ => rfl) (fun _ => rfl)

/-- C1 (counterexample): with an undefined destination on a non-Windows
platform, `getFramework` does NOT return a result: the tilde-expansion step
dereferences `dest.split` and the promise rejects with a TypeError. -/
theorem claim1_counterexample :
    getFramework
      { dest := none, clear := none, rtv := some "15",
        ampUrlPrefix := some "https://example.com" }
      { testEnv with windows := false } =
      (.error "TypeError: Cannot read properties of undefined (reading split)", []) := rfl

theorem applyEvents_frame (env : Env) : ∀ (t : List Event) (fs : String → Option String)
    (q : String), (∀ e ∈ t, e.isRemoval = false) → (∀ c, Event.write q c ∉ t) →
    applyEvents env t fs q = fs q
  | [], _, _, _, _ => rfl
  | e :: rest, fs, q, hrem, hw => by
    have h1 : applyEvent env fs e q = fs q := by
      cases e with
      | write pp c =>
        have hqp : q ≠ pp := by
          intro hqp
          exact hw c (by rw [hqp]; exact List.mem_cons_self _ _)
        simp [applyEvent, hqp]
      | unlink pp => simpa [Event.isRemoval] using hrem _ (List.mem_cons_self _ _)
      | rmdirRec pp => simpa [Event.isRemoval] using hrem _ (List.mem_cons_self _ _)
      | clearDir pp => simpa [Event.isRemoval] using hrem _ (List.mem_cons_self _ _)
      | queryVersion a => rfl
      | fetch u => rfl
      | mkdir pp => rfl
    have hrec := applyEvents_frame env rest (applyEvent env fs e) q
      (fun x hx => hrem x (List.mem_cons_of_mem e hx))
      (fun c hc => hw c (List.mem_cons_of_mem e hc))
    show applyEvents env rest (applyEvent env fs e) q = fs q
    rw [hrec, h1]

theorem main_post_events (env : Env) (d : String) (files : List FileEntry) :
    ∀ e ∈ (createSubdirectories_ env files d).2 ++ (materializeFiles env d files).2,
      e.isRemoval = false ∧
      (∀ pp c, e = Event.write pp c → ∃ f ∈ files, pp = joinPath env d f.filepath) := by
  intro e he
  rcases List.mem_append.mp he with h | h
  · obtain ⟨pp, rfl⟩ := createSubdirectories_events env files d e h
    exact ⟨rfl, fun pp' c h' => nomatch h'⟩
  · rw [materializeFiles_events] at h
    obtain ⟨l, hl, hel⟩ := List.mem_flatten.mp h
    obtain ⟨f, hf, rfl⟩ := List.mem_map.mp hl
    rcases fetchAndSave_events_shape env d f e hel with rfl | ⟨c, rfl⟩
    · exact ⟨rfl, fun pp' c' h' => nomatch h'⟩
    · refine ⟨rfl, fun pp' c' h' => ?_⟩
      injection h' with hp _
      exact ⟨f, hf, hp.symm⟩

theorem getFramework_trace_shape (o : Options) (env : Env) (d v p : String)
    (evs1 : List Event) (files : List FileEntry)
    (h1 : expandTildeStep env o.dest = .ok (some d)) (h2 : d ≠ "")
    (h3 : env.assertDirErr d = none)
    (h4 : resolveRtv env o.rtv o.ampUrlPrefix = (.ok v, evs1))
    (h5 : resolveOrigin env o.ampUrlPrefix = .ok p)
    (h6 : fetchManifest env (frameworkBaseUrlOf p v ++ FRAMEWORK_FILES_TXT)
      (frameworkBaseUrlOf p v) = .ok files) :
    ∃ post, (getFramework o env).2 =
        evs1 ++ [Event.fetch (frameworkBaseUrlOf p v ++ FRAMEWORK_FILES_TXT)] ++
          (if o.clear ≠ some false then clearDirectory_ env d
           else ((.ok (), []) : Except String Unit × List Event)).2 ++ post ∧
      (∀ e ∈ post, e.isRemoval = false) ∧
      (∀ pp c, Event.write pp c ∈ post → ∃ f ∈ files, pp = joinPath env d f.filepath) := by
  have heq := getFramework_main_eq o env d v p evs1 files h1 h2 h3 h4 h5 h6
  cases hXv : (if o.clear ≠ some false then clearDirectory_ env d
      else ((Except.ok (), []) : Except String Unit × List Event)) with
  | mk fstC evsC =>
    rw [hXv] at heq
    cases fstC with
    | error m =>
      refine ⟨[], ?_, fun e he => absurd he (List.not_mem_nil e), fun pp c hc =>
        absurd hc (List.not_mem_nil _)⟩
      rw [heq]
      simp
    | ok u =>
      cases hcs : createSubdirectories_ env files d with
      | mk fstD evsD =>
        rw [hcs] at heq
        have hDevs : (createSubdirectories_ env files d).2 = evsD := by rw [hcs]
        cases fstD with
        | error m =>
          refine ⟨evsD, ?_, ?_, ?_⟩
          · rw [heq]
          · intro e he
            exact (main_post_events env d files e
              (List.mem_append.mpr (Or.inl (hDevs ▸ he)))).1
          · intro pp c hc
            exact (main_post_events env d files _
              (List.mem_append.mpr (Or.inl (hDevs ▸ hc)))).2 pp c rfl
        | ok u2 =>
          cases hmf : materializeFiles env d files with
          | mk fstM evsM =>
            rw [hmf] at heq
            have hMevs : (materializeFiles env d files).2 = evsM := by rw [hmf]
            have hmempost : ∀ e ∈ evsD ++ evsM,
                e.isRemoval = false ∧
                (∀ pp c, e = Event.write pp c →
                  ∃ f ∈ files, pp = joinPath env d f.filepath) := by
              intro e he
              refine main_post_events env d files e ?_
              rw [hDevs, hMevs]
              exact he
            cases fstM with
            | error m =>
              refine ⟨evsD ++ evsM, ?_, fun e he => (hmempost e he).1,
                fun pp c hc => (hmempost _ hc).2 pp c rfl⟩
              rw [heq]
              simp [List.append_assoc]
            | ok u3 =>
              refine ⟨evsD ++ evsM, ?_, fun e he => (hmempost e he).1,
                fun pp c hc => (hmempost _ hc).2 pp c rfl⟩
              rw [heq]
              simp [List.append_assoc]

theorem not_mutation_not_removal (e : Event) (h : e.isMutation = false) :
    e.isRemoval = false := by
  unfold Event.isMutation at h
  exact (Bool.or_eq_false_iff.mp h).1

/-- C8: when the pipeline reaches the directory-planning stage, then (a) with
clear flag not exactly false, one removal event per direct child of the
destination is issued, all inside the clearing block, which precedes every
later (removal-free) event, while everything before it is non-mutating; and
(b) with clear flag exactly false, no removal event occurs at all, every
write targets a manifest-derived path, and any path not written by the run
keeps its previous contents under the trace interpretation. -/
theorem claim8_theorem (o : Options) (env : Env) (d v p : String)
    (evs1 : List Event) (files : List FileEntry)
    (h1 : expandTildeStep env o.dest = .ok (some d)) (h2 : d ≠ "")
    (h3 : env.assertDirErr d = none)
    (h4 : resolveRtv env o.rtv o.ampUrlPrefix = (.ok v, evs1))
    (h5 : resolveOrigin env o.ampUrlPrefix = .ok p)
    (h6 : fetchManifest env (frameworkBaseUrlOf p v ++ FRAMEWORK_FILES_TXT)
      (frameworkBaseUrlOf p v) = .ok files) :
    (o.clear ≠ some false →
      ∀ items, env.readdir d = .ok items →
      ∃ post, (getFramework o env).2 =
          evs1 ++ [Event.fetch (frameworkBaseUrlOf p v ++ FRAMEWORK_FILES_TXT)] ++
            (Event.clearDir d :: clearEvents env d items) ++ post ∧
        (∀ e ∈ evs1 ++ [Event.fetch (frameworkBaseUrlOf p v ++ FRAMEWORK_FILES_TXT)],
          e.isMutation = false) ∧
        (∀ item ∈ items,
          (if item.isDir then Event.rmdirRec (joinPath env d item.name)
           else Event.unlink (joinPath env d item.name)) ∈
            Event.clearDir d :: clearEvents env d items) ∧
        (∀ e ∈ post, e.isRemoval = false)) ∧
    (o.clear = some false →
      (∀ e ∈ (getFramework o env).2, e.isRemoval = false) ∧
      (∀ pp c, Event.write pp c ∈ (getFramework o env).2 →
        ∃ f ∈ files, pp = joinPath env d f.filepath) ∧
      (∀ fs q, (∀ c, Event.write q c ∉ (getFramework o env).2) →
        applyEvents env (getFramework o env).2 fs q = fs q)) := by
  obtain ⟨post, htr, hpost, hpostw⟩ :=
    getFramework_trace_shape o env d v p evs1 files h1 h2 h3 h4 h5 h6
  have hpre : ∀ e ∈ evs1 ++ [Event.fetch (frameworkBaseUrlOf p v ++ FRAMEWORK_FILES_TXT)],
      e.isMutation = false := by
    intro e he
    rcases List.mem_append.mp he with h | h
    · have hevs : (resolveRtv env o.rtv o.ampUrlPrefix).2 = evs1 := by rw [h4]
      exact resolveRtv_events_not_mutation env o.rtv o.ampUrlPrefix e (hevs ▸ h)
    · rcases List.mem_singleton.mp h with rfl
      rfl
  constructor
  · intro hclear items hrd
    rw [if_pos hclear, clearDirectory_events env d items hrd] at htr
    refine ⟨post, htr, hpre, ?_, hpost⟩
    intro item hit
    have hmem := clearDirectory_events_cover env d items hrd item hit
    rw [clearDirectory_events env d items hrd] at hmem
    exact hmem
  · intro hclear
    have hiff : (if o.clear ≠ some false then clearDirectory_ env d
        else ((Except.ok (), []) : Except String Unit × List Event)) = (.ok (), []) :=
      if_neg (by simp [hclear])
    rw [hiff] at htr
    have htr' : (getFramework o env).2 =
        evs1 ++ [Event.fetch (frameworkBaseUrlOf p v ++ FRAMEWORK_FILES_TXT)] ++ post := by
      rw [htr]
      simp
    have hrem : ∀ e ∈ (getFramework o env).2, e.isRemoval = false := by
      intro e he
      rw [htr'] at he
      rcases List.mem_append.mp he with h | h
      · exact not_mutation_not_removal e (hpre e h)
      · exact hpost e h
    refine ⟨hrem, ?_, ?_⟩
    · intro pp c hc
      rw [htr'] at hc
      rcases List.mem_append.mp hc with h | h
      · exact absurd (hpre _ h)
          (by simp [Event.isMutation, Event.isDirOrWrite, Event.isRemoval])
      · exact hpostw pp c h
    · intro fs q hq
      exact applyEvents_frame env _ fs q hrem hq

theorem claim8_witness :
    (oT.clear ≠ some false →
      ∀ items, testEnvWithChild.readdir "dest" = .ok items →
      ∃ post, (getFramework oT testEnvWithChild).2 =
          [] ++ [Event.fetch (frameworkBaseUrlOf "https://example.com" "15" ++
            FRAMEWORK_FILES_TXT)] ++
            (Event.clearDir "dest" :: clearEvents testEnvWithChild "dest" items) ++ post ∧
        (∀ e ∈ ([] : List Event) ++ [Event.fetch (frameworkBaseUrlOf "https://example.com"
            "15" ++ FRAMEWORK_FILES_TXT)], e.isMutation = false) ∧
        (∀ item ∈ items,
          (if item.isDir then Event.rmdirRec (joinPath testEnvWithChild "dest" item.name)
           else Event.unlink (joinPath testEnvWithChild "dest" item.name)) ∈
            Event.clearDir "dest" :: clearEvents testEnvWithChild "dest" items) ∧
        (∀ e ∈ post, e.isRemoval = false)) ∧
    (oT.clear = some false →
      (∀ e ∈ (getFramework oT testEnvWithChild).2, e.isRemoval = false) ∧
      (∀ pp c, Event.write pp c ∈ (getFramework oT testEnvWithChild).2 →
        ∃ f ∈ parseFilesTxt (frameworkBaseUrlOf "https://example.com" "15")
          "files.txt\nv0/a.js\n", pp = joinPath testEnvWithChild "dest" f.filepath) ∧
      (∀ fs q, (∀ c, Event.write q c ∉ (getFramework oT testEnvWithChild).2) →
        applyEvents testEnvWithChild (getFramework oT testEnvWithChild).2 fs q = fs q)) :=
  claim8_theorem oT testEnvWithChild "dest" "15" "https://example.com" []
    (parseFilesTxt (frameworkBaseUrlOf "https://example.com" "15") "files.txt\nv0/a.js\n")
    rfl (by decide) rfl rfl rfl rfl

/-- C10: the returned result's fields are populated exactly as far as the
pipeline progressed: the dest field always holds the tilde-expanded path; the
rtv field is "" on failures before version resolution and the resolved
version afterwards; the url field is "" on failures before origin resolution
and the resolved base URL afterwards; and the count field is 0 on every
failure up to and including the manifest self-reference check, and equals the
manifest entry count afterwards. -/
theorem claim10_theorem (o : Options) (env : Env) (r : Ret) (t : List Event)
    (d' : Option String)
    (hrun : getFramework o env = (.ok r, t))
    (ht : expandTildeStep env o.dest = .ok d') :
    r.dest = d' ∧
    (d' = none ∨ d' = some "" → r.rtv = "" ∧ r.url = "" ∧ r.count = 0) ∧
    (∀ d, d' = some d → d ≠ "" →
      (env.assertDirErr d ≠ none → r.rtv = "" ∧ r.url = "" ∧ r.count = 0) ∧
      (env.assertDirErr d = none →
        (∀ e evs, resolveRtv env o.rtv o.ampUrlPrefix = (.error e, evs) →
          r.rtv = "" ∧ r.url = "" ∧ r.count = 0) ∧
        (∀ v evs, resolveRtv env o.rtv o.ampUrlPrefix = (.ok v, evs) →
          r.rtv = v ∧
          (∀ e, resolveOrigin env o.ampUrlPrefix = .error e → r.url = "" ∧ r.count = 0) ∧
          (∀ p, resolveOrigin env o.ampUrlPrefix = .ok p →
            r.url = frameworkBaseUrlOf p v ∧
            (∀ e, fetchManifest env (frameworkBaseUrlOf p v ++ FRAMEWORK_FILES_TXT)
              (frameworkBaseUrlOf p v) = .error e → r.count = 0) ∧
            (∀ fs, fetchManifest env (frameworkBaseUrlOf p v ++ FRAMEWORK_FILES_TXT)
              (frameworkBaseUrlOf p v) = .ok fs → r.count = fs.length))))) := by
  cases d' with
  | none =>
    have heq := getFramework_dest_none o env ht
    rw [hrun] at heq
    obtain ⟨hr, -⟩ := pair_ok_inj heq
    subst hr
    exact ⟨rfl, fun _ => ⟨rfl, rfl, rfl⟩, fun d hd => nomatch hd⟩
  | some dd =>
    by_cases hdd : dd = ""
    · subst hdd
      have heq := getFramework_dest_empty o env ht
      rw [hrun] at heq
      obtain ⟨hr, -⟩ := pair_ok_inj heq
      subst hr
      refine ⟨rfl, fun _ => ⟨rfl, rfl, rfl⟩, fun d hd hne => ?_⟩
      injection hd with h2
      exact absurd h2.symm hne
    · have hc2 : (some dd = none ∨ some dd = some "") → False := by
        rintro (h | h)
        · cases h
        · injection h with h2
          exact hdd h2
      cases har : env.assertDirErr dd with
      | some e =>
        have heq := getFramework_assert_err o env dd e ht hdd har
        rw [hrun] at heq
        obtain ⟨hr, -⟩ := pair_ok_inj heq
        subst hr
        refine ⟨rfl, fun h => (hc2 h).elim, fun d hd hne => ?_⟩
        injection hd with h2
        subst h2
        refine ⟨fun _ => ⟨rfl, rfl, rfl⟩, fun hnone => ?_⟩
        rw [har] at hnone
        cases hnone
      | none =>
        cases hres : resolveRtv env o.rtv o.ampUrlPrefix with
        | mk fst1 evs1 =>
          cases fst1 with
          | error e =>
            have heq := getFramework_rtv_err o env dd e evs1 ht hdd har hres
            rw [hrun] at heq
            obtain ⟨hr, -⟩ := pair_ok_inj heq
            subst hr
            refine ⟨rfl, fun h => (hc2 h).elim, fun d hd hne => ?_⟩
            injection hd with h2
            subst h2
            refine ⟨fun hne2 => absurd har hne2, fun _ => ⟨?_, ?_⟩⟩
            · intro e' evs' h'
              exact ⟨rfl, rfl, rfl⟩
            · intro v evs' h'
              have hfst := congrArg Prod.fst h'
              simp at hfst
          | ok v =>
            cases ho : resolveOrigin env o.ampUrlPrefix with
            | error e =>
              have heq := getFramework_origin_err o env dd v e evs1 ht hdd har hres ho
              rw [hrun] at heq
              obtain ⟨hr, -⟩ := pair_ok_inj heq
              subst hr
              refine ⟨rfl, fun h => (hc2 h).elim, fun d hd hne => ?_⟩
              injection hd with h2
              subst h2
              refine ⟨fun hne2 => absurd har hne2, fun _ => ⟨?_, ?_⟩⟩
              · intro e' evs' h'
                have hfst := congrArg Prod.fst h'
                simp at hfst
              · intro v' evs' h'
                have hfst := congrArg Prod.fst h'
                simp only [] at hfst
                injection hfst with hv
                subst hv
                refine ⟨rfl, fun e'' h'' => ⟨rfl, rfl⟩, fun p' h'' => ?_⟩
                cases h''
            | ok p =>
              cases hman : fetchManifest env
                  (frameworkBaseUrlOf p v ++ FRAMEWORK_FILES_TXT) (frameworkBaseUrlOf p v) with
              | error e =>
                have heq := getFramework_manifest_err o env dd v p e evs1 ht hdd har hres ho hman
                rw [hrun] at heq
                obtain ⟨hr, -⟩ := pair_ok_inj heq
                subst hr
                refine ⟨rfl, fun h => (hc2 h).elim, fun d hd hne => ?_⟩
                injection hd with h2
                subst h2
                refine ⟨fun hne2 => absurd har hne2, fun _ => ⟨?_, ?_⟩⟩
                · intro e' evs' h'
                  have hfst := congrArg Prod.fst h'
                  simp at hfst
                · intro v' evs' h'
                  have hfst := congrArg Prod.fst h'
                  simp only [] at hfst
                  injection hfst with hv
                  subst hv
                  refine ⟨rfl, ?_, ?_⟩
                  · intro e'' h''
                    cases h''
                  · intro p' h''
                    injection h'' with hp
                    subst hp
                    refine ⟨rfl, fun e'' h'' => rfl, fun fs h'' => ?_⟩
                    rw [hman] at h''
                    cases h''
              | ok files =>
                have heq := getFramework_main_eq o env dd v p evs1 files ht hdd har hres ho hman
                cases hXv : (if o.clear ≠ some false then clearDirectory_ env dd
                    else ((Except.ok (), []) : Except String Unit × List Event)) with
                | mk fstC evsC =>
                  rw [hXv] at heq
                  cases fstC with
                  | error m =>
                    rw [hrun] at heq
                    have hfst := congrArg Prod.fst heq
                    simp at hfst
                  | ok u =>
                    cases hcs : createSubdirectories_ env files dd with
                    | mk fstD evsD =>
                      rw [hcs] at heq
                      cases fstD with
                      | error m =>
                        rw [hrun] at heq
                        have hfst := congrArg Prod.fst heq
                        simp at hfst
                      | ok u2 =>
                        cases hmf : materializeFiles env dd files with
                        | mk fstM evsM =>
                          rw [hmf] at heq
                          rw [hrun] at heq
                          have hkey : r.dest = some dd ∧ r.rtv = v ∧
                              r.url = frameworkBaseUrlOf p v ∧ r.count = files.length := by
                            cases fstM with
                            | error m =>
                              obtain ⟨hr, -⟩ := pair_ok_inj heq
                              subst hr
                              exact ⟨rfl, rfl, rfl, rfl⟩
                            | ok u3 =>
                              obtain ⟨hr, -⟩ := pair_ok_inj heq
                              subst hr
                              exact ⟨rfl, rfl, rfl, rfl⟩
                          obtain ⟨hkd, hkv, hku, hkc⟩ := hkey
                          refine ⟨hkd, fun h => (hc2 h).elim, fun d hd hne => ?_⟩
                          injection hd with h2
                          subst h2
                          refine ⟨fun hne2 => absurd har hne2, fun _ => ⟨?_, ?_⟩⟩
                          · intro e' evs' h'
                            have hfst := congrArg Prod.fst h'
                            simp at hfst
                          · intro v' evs' h'
                            have hfst := congrArg Prod.fst h'
                            simp only [] at hfst
                            injection hfst with hv
                            subst hv
                            refine ⟨hkv, ?_, ?_⟩
                            · intro e'' h''
                              cases h''
                            · intro p' h''
                              injection h'' with hp
                              subst hp
                              refine ⟨hku, fun e'' h'' => ?_, fun fs h'' => ?_⟩
                              · rw [hman] at h''
                                cases h''
                              · rw [hman] at h''
                                injection h'' with hfs
                                subst hfs
                                exact hkc

theorem claim10_witness :
    ({ status := true, error := "", count := 2, url := "https://example.com/rtv/15/",
       dest := some "dest", rtv := "15" } : Ret).dest = some "dest" ∧
    ({ status := true, error := "", count := 2, url := "https://example.com/rtv/15/",
       dest := some "dest", rtv := "15" } : Ret).rtv = "15" ∧
    ({ status := true, error := "", count := 2, url := "https://example.com/rtv/15/",
       dest := some "dest", rtv := "15" } : Ret).url =
      frameworkBaseUrlOf "https://example.com" "15" ∧
    ({ status := true, error := "", count := 2, url := "https://example.com/rtv/15/",
       dest := some "dest", rtv := "15" } : Ret).count =
      (parseFilesTxt (frameworkBaseUrlOf "https://example.com" "15")
        "files.txt\nv0/a.js\n").length := by
  have h := claim10_theorem oT testEnv
    { status := true, error := "", count := 2, url := "https://example.com/rtv/15/",
      dest := some "dest", rtv := "15" }
    [Event.fetch "https://example.com/rtv/15/files.txt",
     Event.clearDir "dest",
     Event.mkdir "dest\\v0",
     Event.fetch "https://example.com/rtv/15/files.txt",
     Event.write "dest\\files.txt" "files.txt\nv0/a.js\n",
     Event.fetch "https://example.com/rtv/15/v0/a.js",
     Event.write "dest\\v0/a.js" "files.txt\nv0/a.js\n"]
    (some "dest") (by rfl) rfl
  obtain ⟨hd, -, h3⟩ := h
  have h4 := (h3 "dest" rfl (by decide)).2 rfl
  have h5 := h4.2 "15" [] rfl
  have h6 := h5.2.2 "https://example.com" rfl
  exact ⟨hd, h5.1, h6.1, h6.2.2 _ rfl⟩
